import Mathlib

/-!
Verification development for the qlab-golang reconciliation engine.

The Go code under verification manipulates JSON-like dynamic values
(`map[string]any` trees decoded from JSON or produced by the CUE loader).
The shallow embedding models:
  - dynamic scalar values as `GoVal` (string, float64 as a rational, int/int64,
    bool, and JSON null);
  - a cue as its string-keyed property bag plus its ordered list of children
    (the value stored under the key named cues in the Go maps; the Go code
    treats a missing or non-array cues entry exactly like an empty one, which
    the embedding represents as the empty child list);
  - Go maps as association lists with unique keys maintained by insertion.

All definitions are translated from the repository sources; the single
spec-modelled definition (`isFieldConflict`) is marked as such in its
doc comment.
-/

/-- A dynamic Go value as it appears in the property bags handled by the
repository: JSON strings, JSON numbers (Go float64, modelled as a rational),
Go integers from the CUE loader, booleans, and JSON null. -/
inductive GoVal : Type where
  | str (s : String)
  | num (q : ℚ)
  | int (n : ℤ)
  | bool (b : Bool)
  | null
deriving DecidableEq, Repr

/-- Association lists standing in for Go string-keyed maps. -/
abbrev SMap (α : Type) : Type := List (String × α)

/-- Map lookup (`v, ok := m[k]`). -/
def alistLookup {α : Type} : SMap α → String → Option α
  | [], _ => none
  | (k, v) :: rest, key => if k = key then some v else alistLookup rest key

/-- Map write (`m[k] = v`): at most one entry per key is kept. -/
def alistInsert {α : Type} (l : SMap α) (key : String) (v : α) : SMap α :=
  (key, v) :: l.filter (fun p => p.1 != key)

/-- A cue: its property bag and its ordered children (the cues entry). -/
inductive Cue : Type where
  | mk (props : List (String × GoVal)) (children : List Cue)

/-- The property bag of a cue. -/
def Cue.props : Cue → List (String × GoVal)
  | .mk p _ => p

/-- The ordered children of a cue (the cues entry of the Go map). -/
def Cue.children : Cue → List Cue
  | .mk _ c => c

/-- Keyed read from the property bag (`v, ok := cue[k]`). -/
def Cue.get (c : Cue) (k : String) : Option GoVal :=
  alistLookup c.props k

/-- Go string type assertion with discarded ok flag
(`s, _ := cue[k].(string)`): yields the empty string unless the value is a
string. -/
def Cue.getStr (c : Cue) (k : String) : String :=
  match c.get k with
  | some (.str s) => s
  | _ => ""

/-- Character-wise lowercasing, modelling Go strings.ToLower on the ASCII
inputs the repository handles. -/
def goToLower (s : String) : String :=
  String.mk (s.data.map Char.toLower)

/-- Decimal digits of the fractional part r/d, fuel-bounded. -/
def decimalDigits : Nat → Nat → Nat → String
  | 0, _, _ => ""
  | _, 0, _ => ""
  | fuel + 1, r, d =>
      let r10 := r * 10
      toString (r10 / d) ++ decimalDigits fuel (r10 % d) d

/-- Model of the Go format verb %g on the float64 values in scope: integral
values print as their integer digits, fractional values as integer part, a
dot and the (finite) decimal expansion of the fraction. -/
def goFmtG (q : ℚ) : String :=
  let sign := if q < 0 then "-" else ""
  let n := q.num.natAbs
  let d := q.den
  if n % d = 0 then sign ++ toString (n / d)
  else sign ++ toString (n / d) ++ "." ++ decimalDigits 17 (n % d) d

/-- The number-normalisation switch shared verbatim by indexCuesRecursively
(cue_mapping.go:710-727), extractCueIdentifier (part_005:432-450) and the
mutation pass (source_update_test.go:2122-2140): strings pass through, a
float64 that is a whole number in [0,999] prints with one decimal place
(%.1f), any other float64 prints with %g, integers print with %d, and the
default %v case covers the remaining scalars. -/
def formatGoNumber : GoVal → String
  | .str s => s
  | .num q => if q.den = 1 ∧ 0 ≤ q ∧ q ≤ 999 then toString q.num ++ ".0" else goFmtG q
  | .int n => toString n
  | .bool b => toString b
  | .null => ""

/-- Extraction of the cue number (`if num, ok := cue[number]; ok && num != nil`
followed by the normalisation switch); absent or null numbers yield the empty
string. -/
def extractNumber (c : Cue) : String :=
  match c.get "number" with
  | some .null => ""
  | some v => formatGoNumber v
  | none => ""

/-- Parent-prefix heuristic (cue_mapping.go:729-737, identically
part_005:452-460 and source_update_test.go:2144-2152): a child number already
containing a dot is kept as is, otherwise it is joined to the parent number
with a dot. -/
def buildFullNumber (parentNumber cueNumber : String) : String :=
  if parentNumber ≠ "" ∧ cueNumber ≠ "" then
    if cueNumber.contains '.' then cueNumber
    else parentNumber ++ "." ++ cueNumber
  else cueNumber

/-- Position-based identity key for cues without numbers
(cue_mapping.go:743-756): parent@index[lowercasetype:name], without the
parent part at the root. -/
def positionKey (parentNumber : String) (i : Nat) (c : Cue) : String :=
  if parentNumber ≠ "" then
    parentNumber ++ "@" ++ toString i ++ "[" ++ goToLower (c.getStr "type") ++ ":" ++
      c.getStr "name" ++ "]"
  else
    "@" ++ toString i ++ "[" ++ goToLower (c.getStr "type") ++ ":" ++ c.getStr "name" ++ "]"

mutual
/-- indexCuesRecursively (cue_mapping.go:701-770); the extra argument i is the
range-loop index of the current entry. -/
def indexCuesRecursively (cues : List Cue) (parentNumber : String) (i : Nat)
    (cueIndex : SMap Cue) : SMap Cue :=
  match cues with
  | [] => cueIndex
  | c :: rest =>
      indexCuesRecursively rest parentNumber (i + 1) (indexOneCue c parentNumber i cueIndex)
termination_by sizeOf cues
decreasing_by all_goals simp_wf <;> omega

/-- One iteration of the loop body of indexCuesRecursively: extract the
number, build the full number, index under it (or under the positional key
when the cue is unnumbered and has a type or a name), then recurse into the
children with the full number as parent. -/
def indexOneCue (c : Cue) (parentNumber : String) (i : Nat) (cueIndex : SMap Cue) : SMap Cue :=
  match c with
  | .mk props children =>
      let cue := Cue.mk props children
      let cueNumber := extractNumber cue
      let fullNumber := buildFullNumber parentNumber cueNumber
      let acc :=
        if fullNumber ≠ "" then alistInsert cueIndex fullNumber cue
        else if cue.getStr "type" ≠ "" ∨ cue.getStr "name" ≠ "" then
          alistInsert cueIndex (positionKey parentNumber i cue) cue
        else cueIndex
      indexCuesRecursively children fullNumber 0 acc
termination_by sizeOf c
decreasing_by all_goals simp_wf
end

/-- indexCuesFromWorkspace (cue_mapping.go:617-698). The Go function first
locates the cue array inside one of several envelope shapes (a direct cues
array, workspace.cues, data.cueLists[].cues or data[].cues); the embedding
receives that extracted cue array and performs the indexing pass over it. -/
def indexCuesFromWorkspace (cues : List Cue) : SMap Cue :=
  indexCuesRecursively cues "" 0 []

/-- extractCueIdentifier (part_005:430-471): same number extraction and
parent-prefix logic as the indexer, but unnumbered cues fall back to
[type:name] with no parent prefix, no position index and no lowercasing. -/
def extractCueIdentifier (c : Cue) (parentNumber : String) : String :=
  if buildFullNumber parentNumber (extractNumber c) = "" then
    "[" ++ c.getStr "type" ++ ":" ++ c.getStr "name" ++ "]"
  else buildFullNumber parentNumber (extractNumber c)

/-- normalizeProperty (source_update_test.go:489-508): nil (and a missing map
entry, which reads back as nil) becomes the empty string, strings pass
through, float64 prints with %g, integers with %d, booleans with %t. -/
def normalizeProperty : Option GoVal → String
  | none => ""
  | some .null => ""
  | some (.str s) => s
  | some (.num q) => goFmtG q
  | some (.int n) => toString n
  | some (.bool b) => toString b

/-- Go filepath.Base on slash-separated paths: empty input yields a dot, a
path of only separators yields a slash, otherwise trailing separators are
stripped and the element after the last separator is returned. -/
def goFilepathBase (path : String) : String :=
  if path = "" then "."
  else
    let stripped := (path.data.reverse.dropWhile (fun ch => ch = '/')).reverse
    if stripped = [] then "/"
    else String.mk ((stripped.reverse.takeWhile (fun ch => ch != '/')).reverse)

/-- s.data decomposes as l1 ++ sub.data ++ l2: Go strings.Contains. -/
def strContains (s sub : String) : Bool :=
  (List.range (s.data.length + 1)).any
    (fun i => (s.data.drop i).take sub.data.length == sub.data)

/-- comparePropertyValues (source_update_test.go:428-486): the per-field
equivalence policy. Equal strings are always equal; armed and flagged never
differ; duration treats 0 and empty as equal; type compares case-insensitively
(strings.EqualFold, modelled as character-wise lowercasing); fileTarget
compares basenames when both sides are non-empty and otherwise differs;
colorName treats empty and none as equal; cueTargetNumber requires exact
equality with both-empty equal; everything else differs. -/
def comparePropertyValues (property val1 val2 : String) : Bool :=
  if val1 = val2 then true
  else if property = "armed" ∨ property = "flagged" then true
  else if property = "duration" ∧ ((val1 = "0" ∧ val2 = "") ∨ (val1 = "" ∧ val2 = "0")) then true
  else if property = "type" ∧ goToLower val1 = goToLower val2 then true
  else if property = "fileTarget" then
    if val1 ≠ "" ∧ val2 ≠ "" then goFilepathBase val1 = goFilepathBase val2 else false
  else if property = "colorName" ∧ ((val1 = "" ∧ val2 = "none") ∨ (val1 = "none" ∧ val2 = "")) then true
  else if property = "cueTargetNumber" then
    if val1 = "" ∧ val2 = "" then true else val1 = val2
  else false

/-- The fixed property list of compareCuePropertiesDetailed
(source_update_test.go:387-390). -/
def comparedProperties : List String :=
  ["name", "type", "fileTarget", "duration", "cueTargetNumber",
   "armed", "colorName", "flagged", "notes"]

/-- The literal difference description Sprintf(\x27%s\x27 -> \x27%s\x27 ...)
of source_update_test.go:420. -/
def diffDescription (val1 val2 : String) : String :=
  "\x27" ++ val1 ++ "\x27 -> \x27" ++ val2 ++ "\x27"

/-- One iteration of the property loop of compareCuePropertiesDetailed
(source_update_test.go:394-422): skip when both normalised values are empty;
for fileTarget and cueTargetNumber skip unless both bags define the key;
record a difference when the equivalence policy rejects the pair. -/
def diffStep (cue1 cue2 : Cue) (differences : SMap String) (prop : String) : SMap String :=
  if normalizeProperty (cue1.get prop) = "" ∧ normalizeProperty (cue2.get prop) = "" then
    differences
  else if (prop = "fileTarget" ∨ prop = "cueTargetNumber") ∧
      ((cue1.get prop).isNone ∨ (cue2.get prop).isNone) then differences
  else if comparePropertyValues prop (normalizeProperty (cue1.get prop))
      (normalizeProperty (cue2.get prop)) then differences
  else
    alistInsert differences prop
      (diffDescription (normalizeProperty (cue1.get prop)) (normalizeProperty (cue2.get prop)))

/-- compareCuePropertiesDetailed (source_update_test.go:385-425). -/
def compareCuePropertiesDetailed (cue1 cue2 : Cue) : SMap String :=
  comparedProperties.foldl (diffStep cue1 cue2) []

/-- compareCueProperties (source_update_test.go:379-382). -/
def compareCueProperties (cue1 cue2 : Cue) : Bool :=
  (compareCuePropertiesDetailed cue1 cue2).isEmpty

/-- compareCacheWithCurrentState (source_update_test.go:351-376): index both
workspaces, require equal cue counts, and require every cached cue to exist
and match in the current index. -/
def compareCacheWithCurrentState (cachedWorkspace currentWorkspace : List Cue) : Bool :=
  let cachedCues := indexCuesFromWorkspace cachedWorkspace
  let currentCues := indexCuesFromWorkspace currentWorkspace
  if cachedCues.length != currentCues.length then false
  else cachedCues.all (fun p =>
    match alistLookup currentCues p.1 with
    | none => false
    | some currentCue => compareCueProperties p.2 currentCue)

/-- FieldConflict (part_007:350-357); the dynamically typed value fields are
optional GoVal (nil modelled as none). -/
structure FieldConflict where
  fieldName : String
  sourceValue : Option GoVal
  cacheValue : Option GoVal
  qlabValue : Option GoVal
  chosenValue : Option GoVal
  chosenSource : String
deriving DecidableEq, Repr

/-- ScopeComparison (part_007:375-384). -/
inductive ScopeComparison : Type where
  | mk (scope : String) (identifier : String) (hasChanges : Bool) (changeType : String)
      (fieldChanges : SMap FieldConflict) (childScopes : List ScopeComparison)
      (conflictExists : Bool) (resolved : Bool)

/-- The Scope field of a ScopeComparison. -/
def ScopeComparison.scope : ScopeComparison → String
  | .mk s _ _ _ _ _ _ _ => s

/-- The Identifier field of a ScopeComparison. -/
def ScopeComparison.identifier : ScopeComparison → String
  | .mk _ i _ _ _ _ _ _ => i

/-- The FieldChanges field of a ScopeComparison. -/
def ScopeComparison.fieldChanges : ScopeComparison → SMap FieldConflict
  | .mk _ _ _ _ f _ _ _ => f

/-- The ChildScopes field of a ScopeComparison. -/
def ScopeComparison.childScopes : ScopeComparison → List ScopeComparison
  | .mk _ _ _ _ _ c _ _ => c

/-- The ConflictExists field of a ScopeComparison. -/
def ScopeComparison.conflictExists : ScopeComparison → Bool
  | .mk _ _ _ _ _ _ e _ => e

/-- CueChangeResult (workspace_comparison.go:4-13). -/
structure CueChangeResult where
  hasChanged : Bool
  reason : String
  existingID : String
  action : String
  modifiedFields : SMap String
  cueID : String
  fieldConflicts : SMap FieldConflict
  scopeData : Option ScopeComparison

/-- ThreeWayComparison (workspace_comparison.go:16-26); QLabChosenCues (a Go
set map[string]bool holding true entries) is modelled as the list of its keys,
and the unused MergedResult pointer (always nil in the verified paths) is
omitted. -/
structure ThreeWayComparison where
  cueResults : SMap CueChangeResult
  hasCache : Bool
  hasQLabData : Bool
  cacheMatchesQLab : Bool
  qlabChosenCues : List String
  qlabChosenFields : SMap (List String)
  currentQLabData : Option (List Cue)
  workspaceScope : Option ScopeComparison

/-- The freshly initialised CueChangeResult of part_005:638-643: a new cue to
be created. -/
def initialCueChangeResult : CueChangeResult :=
  { hasChanged := true
    action := "create"
    reason := "new cue"
    existingID := ""
    modifiedFields := []
    cueID := ""
    fieldConflicts := []
    scopeData := none }

/-- Copy the uniqueID of the current cue into CueID and ExistingID
(part_005:681-684 and 723-726), only when the value is a string. -/
def recordCueID (currentCue : Cue) (result : CueChangeResult) : CueChangeResult :=
  match currentCue.get "uniqueID" with
  | some (.str id) => { result with cueID := id, existingID := id }
  | _ => result

/-- The per-cue classification of PerformThreeWayComparison
(part_005:637-749): given a source cue and the optional cache and current
cues found under the same identity key, produce its CueChangeResult. In the
both-modified branch the Go code inserts the prefixed entries of both diff
maps into one fresh map; as the prefixed key families are disjoint, that map
is represented as the appended list of prefixed entries. -/
def classifyCue (sourceCue : Cue) (cached : Option Cue) (current : Option Cue) :
    CueChangeResult :=
  let result := initialCueChangeResult
  match current with
  | some currentCue =>
    let result :=
      match currentCue.get "uniqueID" with
      | some (.str id) => { result with existingID := id }
      | _ => result
    match cached with
    | some cachedCue =>
      let sourceCacheDiffs := compareCuePropertiesDetailed sourceCue cachedCue
      let cacheCurrentDiffs := compareCuePropertiesDetailed cachedCue currentCue
      let result := recordCueID currentCue result
      if sourceCacheDiffs.isEmpty ∧ cacheCurrentDiffs.isEmpty then
        { result with
            hasChanged := false
            action := "skip"
            reason := "unchanged since last transmission"
            modifiedFields := [] }
      else if sourceCacheDiffs.isEmpty then
        { result with
            hasChanged := true
            action := "update"
            reason := "QLab modified externally, reverting to source"
            modifiedFields := cacheCurrentDiffs }
      else if cacheCurrentDiffs.isEmpty then
        { result with
            hasChanged := true
            action := "update"
            reason := "source file modified"
            modifiedFields := sourceCacheDiffs }
      else
        { result with
            hasChanged := true
            action := "update"
            reason := "both source and QLab modified"
            modifiedFields :=
              sourceCacheDiffs.map (fun p => ("source_vs_cache_" ++ p.1, p.2)) ++
              cacheCurrentDiffs.map (fun p => ("cache_vs_current_" ++ p.1, p.2)) }
    | none =>
      let sourceCurrentDiffs := compareCuePropertiesDetailed sourceCue currentCue
      let result := recordCueID currentCue result
      if sourceCurrentDiffs.isEmpty then
        { result with
            hasChanged := false
            action := "skip"
            reason := "matches current QLab state"
            modifiedFields := [] }
      else
        { result with
            hasChanged := true
            action := "update"
            reason := "differs from current QLab state"
            modifiedFields := sourceCurrentDiffs }
  | none =>
    { result with
        hasChanged := true
        action := "create"
        reason := "new cue"
        modifiedFields := [] }

/-- linkScopeDataToCueResults (part_005:760-773): for every cue-scope child of
the workspace scope whose identifier matches a cue result, attach the scope
data and replace the field conflicts. -/
def linkScopeDataToCueResults (results : SMap CueChangeResult)
    (workspaceScope : ScopeComparison) : SMap CueChangeResult :=
  workspaceScope.childScopes.foldl (fun res cueScope =>
    if cueScope.scope = "cue" then
      match alistLookup res cueScope.identifier with
      | some r =>
          alistInsert res cueScope.identifier
            { r with scopeData := some cueScope, fieldConflicts := cueScope.fieldChanges }
      | none => res
    else res) results

/-- Pure core of PerformThreeWayComparison (part_005:529-757). The file-system
and network steps are replaced by their outcomes: cacheW none models a missing
or unreadable cache (HasCache=false), currentW none a failed live query
(HasQLabData=false, part_005:576-587), and scopeResult the outcome of
PerformScopeBasedComparison, which the Go code computes only when both cache
and live data are present (none when it failed). When the live query failed
the current-cue index is initialised as an empty map, never nil
(part_005:629-634). -/
def performThreeWayComparison (sourceW : List Cue) (cacheW : Option (List Cue))
    (currentW : Option (List Cue)) (scopeResult : Option ScopeComparison) :
    ThreeWayComparison :=
  let hasCache := cacheW.isSome
  let hasQLabData := currentW.isSome
  let cacheMatchesQLab :=
    match cacheW, currentW with
    | some cached, some current => compareCacheWithCurrentState cached current
    | _, _ => false
  let workspaceScope :=
    match cacheW, currentW with
    | some _, some _ => scopeResult
    | _, _ => none
  let sourceCues := indexCuesFromWorkspace sourceW
  let cachedCues :=
    match cacheW with
    | some cached => indexCuesFromWorkspace cached
    | none => []
  let currentCues :=
    match currentW with
    | some current => indexCuesFromWorkspace current
    | none => []
  let results := sourceCues.map (fun p =>
    (p.1, classifyCue p.2 (alistLookup cachedCues p.1) (alistLookup currentCues p.1)))
  let results :=
    match workspaceScope with
    | some ws => linkScopeDataToCueResults results ws
    | none => results
  { cueResults := results
    hasCache := hasCache
    hasQLabData := hasQLabData
    cacheMatchesQLab := cacheMatchesQLab
    qlabChosenCues := []
    qlabChosenFields := []
    currentQLabData := currentW
    workspaceScope := workspaceScope }

/-- CueConflict (part_007:360-372). -/
structure CueConflict where
  cueNumber : String
  cueIdentifier : String
  conflictType : String
  scope : String
  sourceData : Option Cue
  cacheData : Option Cue
  qlabData : Option Cue
  properties : List String
  fieldConflicts : SMap FieldConflict
  description : String
  resolved : Bool

/-- Modelled from the spec: isFieldConflict, called at
source_update_test.go:1950, is not among the provided sources. Following the
conflict-identification rules of the spec (a field change participates in a
conflict when, after normalisation, a side disagrees with the common cache
ancestor), a FieldConflict is retained when the source value or the remote
value differs from the cache value under the per-field equivalence policy. -/
def isFieldConflict (fc : FieldConflict) : Bool :=
  !comparePropertyValues fc.fieldName (normalizeProperty fc.sourceValue)
      (normalizeProperty fc.cacheValue) ||
  !comparePropertyValues fc.fieldName (normalizeProperty fc.qlabValue)
      (normalizeProperty fc.cacheValue)

/-- Rendering of a Go []string under %v: space-separated inside brackets. -/
def goFmtStrSlice (xs : List String) : String :=
  "[" ++ String.intercalate " " xs ++ "]"

/-- The own-scope conflict construction of identifyConflictsFromScope
(source_update_test.go:1943-2005): when the scope has conflicts, keep the
field changes passing isFieldConflict, and classify by which sides changed
against the cache. -/
def scopeOwnConflicts (sc : ScopeComparison) : List CueConflict :=
  if sc.conflictExists then
    let kept := sc.fieldChanges.filter (fun p => isFieldConflict p.2)
    let properties := kept.map (fun p => p.1)
    if properties ≠ [] then
      let hasSourceChanges := kept.any (fun p =>
        !comparePropertyValues p.2.fieldName (normalizeProperty p.2.sourceValue)
          (normalizeProperty p.2.cacheValue))
      let hasQLabChanges := kept.any (fun p =>
        !comparePropertyValues p.2.fieldName (normalizeProperty p.2.qlabValue)
          (normalizeProperty p.2.cacheValue))
      let conflictType :=
        if hasSourceChanges ∧ hasQLabChanges then "three_way_divergence"
        else if hasQLabChanges then "cache_stale"
        else if hasSourceChanges then "source_modified"
        else ""
      let description :=
        if hasSourceChanges ∧ hasQLabChanges then
          sc.scope ++ " \x27" ++ sc.identifier ++
            "\x27 has conflicting changes in source and QLab (fields: " ++
            goFmtStrSlice properties ++ ")"
        else if hasQLabChanges then
          sc.scope ++ " \x27" ++ sc.identifier ++ "\x27 modified in QLab (fields: " ++
            goFmtStrSlice properties ++ ")"
        else if hasSourceChanges then
          sc.scope ++ " \x27" ++ sc.identifier ++ "\x27 modified in source (fields: " ++
            goFmtStrSlice properties ++ ")"
        else ""
      [{ cueNumber := sc.identifier
         cueIdentifier := sc.identifier
         conflictType := conflictType
         scope := sc.scope
         sourceData := none
         cacheData := none
         qlabData := none
         properties := properties
         fieldConflicts := kept
         description := description
         resolved := false }]
    else []
  else []

mutual
/-- identifyConflictsFromScope (source_update_test.go:1936-2014): own-scope
conflicts followed by the recursively collected child-scope conflicts. -/
def identifyConflictsFromScope (sc : ScopeComparison) : List CueConflict :=
  match sc with
  | .mk scope identifier hasChanges changeType fieldChanges childScopes conflictExists resolved =>
      scopeOwnConflicts
        (.mk scope identifier hasChanges changeType fieldChanges childScopes conflictExists resolved) ++
      identifyConflictsFromScopeList childScopes
termination_by sizeOf sc
decreasing_by all_goals (simp_wf; try omega)

/-- The child-scope loop of identifyConflictsFromScope. -/
def identifyConflictsFromScopeList (scopes : List ScopeComparison) : List CueConflict :=
  match scopes with
  | [] => []
  | sc :: rest => identifyConflictsFromScope sc ++ identifyConflictsFromScopeList rest
termination_by sizeOf scopes
decreasing_by all_goals simp_wf <;> omega
end

/-- The legacy (scope-less) conflict record of IdentifyConflicts
(source_update_test.go:1899-1930). -/
def legacyConflict (cueNumber : String) (result : CueChangeResult) : CueConflict :=
  if strContains result.reason "QLab modified externally" then
    { cueNumber := cueNumber
      cueIdentifier := cueNumber
      conflictType := "cache_stale"
      scope := "cue"
      sourceData := none
      cacheData := none
      qlabData := none
      properties := []
      fieldConflicts := result.fieldConflicts
      description := "Cue " ++ cueNumber ++ " has been modified in QLab since last sync"
      resolved := false }
  else
    { cueNumber := cueNumber
      cueIdentifier := cueNumber
      conflictType := "three_way_divergence"
      scope := "cue"
      sourceData := none
      cacheData := none
      qlabData := none
      properties := []
      fieldConflicts := result.fieldConflicts
      description := "Cue " ++ cueNumber ++
        " has been modified in both the source file and QLab since last sync"
      resolved := false }

/-- IdentifyConflicts (source_update_test.go:1867-1933). The Go signature
returns (conflicts, error) with the error nil on every path; the pair is kept
so the statements can speak about both components. The nil-result guard of
the legacy loop has no counterpart because the embedding holds values, not
pointers. -/
def IdentifyConflicts (comparison : ThreeWayComparison) :
    List CueConflict × Option String :=
  if !comparison.hasQLabData then ([], none)
  else if !comparison.hasCache then ([], none)
  else if comparison.cacheMatchesQLab then ([], none)
  else
    match comparison.workspaceScope with
    | some ws => (identifyConflictsFromScope ws, none)
    | none =>
      (comparison.cueResults.foldl (fun conflicts p =>
        if p.2.action = "update" ∧
            (strContains p.2.reason "QLab modified externally" ∨
             strContains p.2.reason "both source and QLab modified") then
          conflicts ++ [legacyConflict p.1 p.2]
        else conflicts) [], none)

/-- The three resolution choice strings (conflict_resolver.go:9-13). -/
def choiceUseSource : String := "use_source"

/-- The keep-QLab resolution choice string. -/
def choiceKeepQLab : String := "keep_qlab"

/-- The skip resolution choice string. -/
def choiceSkip : String := "skip"

/-- One iteration of ApplyResolutions (conflict_resolver.go:68-93): a key
absent from CueResults is ignored; otherwise the switch rewrites action and
reason, the keep-QLab choice also records the key in QLabChosenCues, and an
unrecognised choice writes the result back unchanged. -/
def applyOneResolution (comparison : ThreeWayComparison) (cueNumber choice : String) :
    ThreeWayComparison :=
  match alistLookup comparison.cueResults cueNumber with
  | none => comparison
  | some result =>
    if choice = choiceUseSource then
      { comparison with
        cueResults := alistInsert comparison.cueResults cueNumber
          ({ result with action := "update", reason := "User chose to use source file version" }) }
    else if choice = choiceKeepQLab then
      { comparison with
        cueResults := alistInsert comparison.cueResults cueNumber
          ({ result with action := "skip", reason := "User chose to keep QLab version" })
        qlabChosenCues := comparison.qlabChosenCues ++ [cueNumber] }
    else if choice = choiceSkip then
      { comparison with
        cueResults := alistInsert comparison.cueResults cueNumber
          ({ result with action := "skip", reason := "User chose to skip this cue" }) }
    else
      { comparison with cueResults := alistInsert comparison.cueResults cueNumber result }

/-- ApplyResolutions (conflict_resolver.go:67-94): fold the per-key switch
over the resolution map (modelled as an association list with unique keys). -/
def ApplyResolutions (comparison : ThreeWayComparison) (resolutions : SMap String) :
    ThreeWayComparison :=
  resolutions.foldl (fun c p => applyOneResolution c p.1 p.2) comparison

/-- The remote commands the mutation pass can issue; the trace of issued
commands stands in for the OSC side effects. -/
inductive QLabCmd : Type where
  | createCue (fullNumber : String)
  | updateCueProps (uniqueID : String)
  | moveCueToParent (childID parentID : String)
  | moveChildToParentAt (childID parentID : String) (index : Nat)
deriving DecidableEq, Repr

/-- The remote operations invoked by the mutation pass, abstracted as oracles
over their observable outcome (the returned uniqueID or the error). -/
structure MutationEnv where
  createCue : Cue → String → Except String String
  updateCueProperties : String → Cue → Except String Unit
  moveCueToParent : String → String → Except String Unit
  moveCueToParentWithIndex : String → String → Nat → Except String Unit

/-- The mutable bookkeeping of the mutation pass: the CueMapping
(NumberToID and CuesWithTargets, cue_mapping.go:4-7 of part one) and the
connection-level cueListNames map. -/
structure MutationState where
  numberToID : SMap String
  cuesWithTargets : List (String × String)
  cueListNames : SMap String

/-- The change-result lookup of the mutation pass
(source_update_test.go:2171-2184): by full number first, else by the
positional key when one was generated. -/
def lookupChangeResult (changeResults : SMap CueChangeResult) (fullNumber : String)
    (posKey : Option String) : Option (String × CueChangeResult) :=
  if fullNumber ≠ "" then
    match alistLookup changeResults fullNumber with
    | some r => some (fullNumber, r)
    | none => none
  else
    match posKey with
    | some pk =>
      match alistLookup changeResults pk with
      | some r => some (pk, r)
      | none => none
    | none => none

/-- Outcome of the head phase of
processCueListWithParentMappingAndChangeDetectionWithIndex: either an early
return (skip, the update-without-ID error, a failed remote call, or reuse of
an existing cue list) or the go-ahead with the cue uniqueID, the updated
state and the commands issued so far. -/
inductive HeadOutcome : Type where
  | early (r : Except String String) (st : MutationState) (trace : List QLabCmd)
  | proceed (uniqueID : String) (st : MutationState) (trace : List QLabCmd)

/-- Head phase of processCueListWithParentMappingAndChangeDetectionWithIndex
(source_update_test.go:2096-2267): duplicate cue-list detection, number
extraction, change-result lookup, and the skip/update/create switch. The
update action with an empty ExistingID fails before any command is issued. -/
def processCueHead (env : MutationEnv) (cue : Cue) (parentNumber : String)
    (mappingSt : MutationState) (changeResults : SMap CueChangeResult) (cueIndex : Int) :
    HeadOutcome :=
  let cueType := cue.getStr "type"
  let cueName := cue.getStr "name"
  let existingCueListID :=
    if cueType = "list" ∧ cueName ≠ "" then
      (alistLookup mappingSt.cueListNames cueName).getD ""
    else ""
  let cueNumber := extractNumber cue
  let fullNumber := buildFullNumber parentNumber cueNumber
  let posKey : Option String :=
    if fullNumber = "" ∧ 0 ≤ cueIndex then
      some (positionKey parentNumber cueIndex.toNat cue)
    else none
  match lookupChangeResult changeResults fullNumber posKey with
  | some (lookupKey, changeResult) =>
    if changeResult.action = "skip" then
      let uniqueID := changeResult.existingID
      let st :=
        if fullNumber ≠ "" ∧ uniqueID ≠ "" then
          { mappingSt with numberToID := alistInsert mappingSt.numberToID fullNumber uniqueID }
        else mappingSt
      .early (.ok uniqueID) st []
    else if changeResult.action = "update" then
      let uniqueID := changeResult.existingID
      if uniqueID = "" then
        .early (.error ("cannot update cue " ++ lookupKey ++ ": no existing ID provided"))
          mappingSt []
      else
        match env.updateCueProperties uniqueID cue with
        | .error e =>
            .early (.error ("failed to update cue " ++ lookupKey ++ ": " ++ e)) mappingSt
              [.updateCueProps uniqueID]
        | .ok _ =>
          let st :=
            if fullNumber ≠ "" ∧ uniqueID ≠ "" then
              { mappingSt with
                  numberToID := alistInsert mappingSt.numberToID fullNumber uniqueID }
            else mappingSt
          .proceed uniqueID st [.updateCueProps uniqueID]
    else
      match env.createCue cue fullNumber with
      | .error e =>
          .early (.error ("failed to create cue " ++ lookupKey ++ ": " ++ e)) mappingSt
            [.createCue fullNumber]
      | .ok uniqueID => .proceed uniqueID mappingSt [.createCue fullNumber]
  | none =>
    if existingCueListID ≠ "" then
      let uniqueID := existingCueListID
      let st :=
        if fullNumber ≠ "" ∧ uniqueID ≠ "" then
          { mappingSt with numberToID := alistInsert mappingSt.numberToID fullNumber uniqueID }
        else mappingSt
      .early (.ok uniqueID) st []
    else
      match env.createCue cue fullNumber with
      | .error e =>
          .early (.error ("failed to create cue " ++ fullNumber ++ ": " ++ e)) mappingSt
            [.createCue fullNumber]
      | .ok uniqueID => .proceed uniqueID mappingSt [.createCue fullNumber]

/-- The per-child lookup key of the move-skipping check
(source_update_test.go:2328-2343): the plain string assertion of the child
number, else the positional key under this parent. -/
def childMoveLookupKey (parentFullNumber : String) (childIndex : Nat) (subCue : Cue) : String :=
  let childCueType := subCue.getStr "type"
  let childCueName := subCue.getStr "name"
  let childFullNumber := subCue.getStr "number"
  if childFullNumber ≠ "" then childFullNumber
  else if parentFullNumber ≠ "" then
    parentFullNumber ++ "@" ++ toString childIndex ++ "[" ++ goToLower childCueType ++ ":" ++
      childCueName ++ "]"
  else
    "@" ++ toString childIndex ++ "[" ++ goToLower childCueType ++ ":" ++ childCueName ++ "]"

mutual
/-- processCueListWithParentMappingAndChangeDetectionWithIndex
(source_update_test.go:2096-2389): head phase, then cue-list registration,
number mapping, target registration, the move into the parent, and the
sub-cue loop. Returns the Go (uniqueID, error) pair together with the final
state and the trace of issued commands. -/
def processCue (env : MutationEnv) (cueData : Cue) (parentNumber parentUniqueID : String)
    (mappingSt : MutationState) (changeResults : SMap CueChangeResult) (cueIndex : Int) :
    Except String String × MutationState × List QLabCmd :=
  match cueData with
  | .mk props children =>
    let cue := Cue.mk props children
    match processCueHead env cue parentNumber mappingSt changeResults cueIndex with
    | .early r st trace => (r, st, trace)
    | .proceed uniqueID st trace =>
      let cueType := cue.getStr "type"
      let cueName := cue.getStr "name"
      let cueNumber := extractNumber cue
      let fullNumber := buildFullNumber parentNumber cueNumber
      let st :=
        if cueType = "list" ∧ cueName ≠ "" ∧ uniqueID ≠ "" then
          { st with cueListNames := alistInsert st.cueListNames cueName uniqueID }
        else st
      let st :=
        if fullNumber ≠ "" ∧ uniqueID ≠ "" then
          { st with numberToID := alistInsert st.numberToID fullNumber uniqueID }
        else st
      let st :=
        match cue.get "cueTargetNumber" with
        | some (.str targetNumber) =>
          if targetNumber ≠ "" ∧ uniqueID ≠ "" then
            { st with cuesWithTargets := st.cuesWithTargets ++ [(uniqueID, targetNumber)] }
          else st
        | _ => st
      if parentUniqueID ≠ "" ∧ uniqueID ≠ "" then
        if st.cueListNames.any (fun p => p.2 == parentUniqueID) then
          processCueChildrenPhase env children fullNumber uniqueID st changeResults trace
        else
          match env.moveCueToParent uniqueID parentUniqueID with
          | .error e =>
              (.error ("failed to move cue " ++ uniqueID ++ " into parent " ++ parentUniqueID ++
                ": " ++ e), st, trace ++ [.moveCueToParent uniqueID parentUniqueID])
          | .ok _ =>
              processCueChildrenPhase env children fullNumber uniqueID st changeResults
                (trace ++ [.moveCueToParent uniqueID parentUniqueID])
      else
        processCueChildrenPhase env children fullNumber uniqueID st changeResults trace
termination_by 2 * sizeOf cueData + 1
decreasing_by all_goals (simp_wf; try omega)

/-- The sub-cue phase (source_update_test.go:2308-2389): when the cue has a
uniqueID, process every child recursively and move it into place unless its
change result says skip or the parent is an existing cue list; errors abort
with the sub-cue error wrapper. Ends by returning the uniqueID. -/
def processCueChildrenPhase (env : MutationEnv) (children : List Cue)
    (fullNumber uniqueID : String) (st : MutationState)
    (changeResults : SMap CueChangeResult) (trace : List QLabCmd) :
    Except String String × MutationState × List QLabCmd :=
  if uniqueID ≠ "" then
    match processChildren env children fullNumber uniqueID st changeResults 0 trace with
    | (.error e, st2, trace2) => (.error e, st2, trace2)
    | (.ok _, st2, trace2) => (.ok uniqueID, st2, trace2)
  else (.ok uniqueID, st, trace)
termination_by 2 * sizeOf children + 2
decreasing_by all_goals (simp_wf; try omega)

/-- The loop body over sub-cues (source_update_test.go:2314-2378). -/
def processChildren (env : MutationEnv) (children : List Cue)
    (fullNumber uniqueID : String) (st : MutationState)
    (changeResults : SMap CueChangeResult) (childIndex : Nat) (trace : List QLabCmd) :
    Except String Unit × MutationState × List QLabCmd :=
  match children with
  | [] => (.ok (), st, trace)
  | subCue :: rest =>
    match processCue env subCue fullNumber "" st changeResults (Int.ofNat childIndex) with
    | (.error e, st2, trace2) =>
        (.error ("error processing sub-cue " ++ toString childIndex ++ ": " ++ e), st2,
          trace ++ trace2)
    | (.ok childUniqueID, st2, trace2) =>
      let trace := trace ++ trace2
      if childUniqueID ≠ "" then
        let childLookupKey := childMoveLookupKey fullNumber childIndex subCue
        let shouldSkipMove :=
          match alistLookup changeResults childLookupKey with
          | some r => r.action == "skip"
          | none => false
        if shouldSkipMove then
          processChildren env rest fullNumber uniqueID st2 changeResults (childIndex + 1) trace
        else if st2.cueListNames.any (fun p => p.2 == uniqueID) then
          processChildren env rest fullNumber uniqueID st2 changeResults (childIndex + 1) trace
        else
          match env.moveCueToParentWithIndex childUniqueID uniqueID childIndex with
          | .error e =>
              (.error ("failed to move child cue " ++ childUniqueID ++ " into parent " ++
                uniqueID ++ " at index " ++ toString childIndex ++ ": " ++ e), st2,
                trace ++ [.moveChildToParentAt childUniqueID uniqueID childIndex])
          | .ok _ =>
              processChildren env rest fullNumber uniqueID st2 changeResults (childIndex + 1)
                (trace ++ [.moveChildToParentAt childUniqueID uniqueID childIndex])
      else
        processChildren env rest fullNumber uniqueID st2 changeResults (childIndex + 1) trace
termination_by 2 * sizeOf children
decreasing_by all_goals (simp_wf; try omega)
end

/-- The structured timeout payload of sendWithRetry (osc.go:286 and 295). -/
def timeoutErrorPayload : String :=
  "\x7b\"status\": \"error\", \"error\": \"timeout waiting for reply from QLab\"\x7d"

/-- What one attempt of the retry loop can observe: the send call failing, a
correlated reply carrying its arguments, or no reply within the timeout. -/
inductive AttemptOutcome : Type where
  | sendError
  | reply (args : List GoVal)
  | timeout

/-- The attempt loop of sendWithRetry (osc.go:211-295) with the per-attempt
network behaviour abstracted as an outcome oracle: a failed send continues
(osc.go:230-233), a reply returns its arguments, a timeout retries while
attempts remain and otherwise returns the structured timeout payload; when
the loop exits by exhausting attempts the same payload is returned
(osc.go:290-295). -/
def sendAttempts (outcomes : Nat → AttemptOutcome) (maxRetries attempt remaining : Nat) :
    List GoVal :=
  match remaining with
  | 0 => [.str timeoutErrorPayload]
  | r + 1 =>
    match outcomes attempt with
    | .sendError => sendAttempts outcomes maxRetries (attempt + 1) r
    | .reply args => args
    | .timeout =>
      if attempt < maxRetries then sendAttempts outcomes maxRetries (attempt + 1) r
      else [.str timeoutErrorPayload]

/-- sendWithRetry (osc.go:209-296): the for loop runs attempts 0..maxRetries. -/
def sendWithRetry (maxRetries : Nat) (outcomes : Nat → AttemptOutcome) : List GoVal :=
  sendAttempts outcomes maxRetries 0 (maxRetries + 1)

/-- The per-call timeout in seconds (osc.go:236-239): an unset value of zero
defaults to 10 seconds. -/
def effectiveTimeoutSeconds (t : Nat) : Nat :=
  if t = 0 then 10 else t

/-- NewWorkspace (cue_mapping.go:63-75) sets timeout to 10 seconds. -/
def newWorkspaceTimeoutSeconds : Nat := 10

/-- NewWorkspace leaves maxRetries at the Go zero value: no retries. -/
def newWorkspaceMaxRetries : Nat := 0

/-! Basic lemmas about the map model. -/

theorem alistLookup_insert_self {α : Type} (l : SMap α) (k : String) (v : α) :
    alistLookup (alistInsert l k v) k = some v := by
  simp [alistInsert, alistLookup]

theorem alistLookup_filter_ne {α : Type} (l : SMap α) (k k' : String)
    (h : k' ≠ k) : alistLookup (l.filter (fun p => p.1 != k')) k = alistLookup l k := by
  induction l with
  | nil => rfl
  | cons p rest ih =>
    obtain ⟨a, b⟩ := p
    by_cases hak : a = k'
    · subst hak
      simp [List.filter_cons, alistLookup, h, ih]
    · have hb : (a != k') = true := by simpa using hak
      simp only [List.filter_cons, hb, if_true]
      by_cases hka : a = k
      · simp [alistLookup, hka]
      · simp [alistLookup, hka, ih]

theorem alistLookup_insert_ne {α : Type} (l : SMap α) (k k' : String) (v : α)
    (h : k' ≠ k) : alistLookup (alistInsert l k' v) k = alistLookup l k := by
  simp only [alistInsert, alistLookup, if_neg h]
  exact alistLookup_filter_ne l k k' h

/-! Claim C9: structured timeout result of the retry loop. -/

theorem sendAttempts_all_timeout (outcomes : Nat → AttemptOutcome) (maxRetries : Nat) :
    ∀ remaining attempt, attempt + remaining = maxRetries + 1 →
    (∀ a, a ≤ maxRetries → outcomes a = .timeout) →
    sendAttempts outcomes maxRetries attempt remaining = [.str timeoutErrorPayload] := by
  intro remaining
  induction remaining with
  | zero => intro attempt _ _; rfl
  | succ r ih =>
    intro attempt hsum hall
    have hle : attempt ≤ maxRetries := by omega
    simp only [sendAttempts, hall attempt hle]
    by_cases hlt : attempt < maxRetries
    · simp only [if_pos hlt]
      exact ih (attempt + 1) (by omega) hall
    · simp only [if_neg hlt]

/-- C9. For every retry bound, when every attempt (the initial one and each
retry) times out, sendWithRetry returns exactly the one-element payload
\x7b"status": "error", "error": "timeout waiting for reply from QLab"\x7d — a
total function result, never nil; the per-call timeout defaults to 10 seconds
when unset and NewWorkspace configures 10 seconds with zero retries. -/
theorem timeout_returns_structured_payload (maxRetries : Nat)
    (outcomes : Nat → AttemptOutcome)
    (hall : ∀ a, a ≤ maxRetries → outcomes a = .timeout) :
    sendWithRetry maxRetries outcomes = [.str timeoutErrorPayload] ∧
    effectiveTimeoutSeconds 0 = 10 ∧
    newWorkspaceTimeoutSeconds = 10 ∧ newWorkspaceMaxRetries = 0 := by
  refine ⟨?_, rfl, rfl, rfl⟩
  exact sendAttempts_all_timeout outcomes maxRetries (maxRetries + 1) 0 (by omega) hall

/-- Closed witness for C9 at the default configuration: zero retries, every
attempt timing out. -/
theorem timeout_returns_structured_payload_witness :
    sendWithRetry newWorkspaceMaxRetries (fun _ => .timeout) =
      [.str timeoutErrorPayload] :=
  (timeout_returns_structured_payload newWorkspaceMaxRetries (fun _ => .timeout)
    (fun _ _ => rfl)).1

/-! Claim C5: numeric-format equivalence of identity keys. -/

/-- C5. Indexing a cue whose number is the string 1.0, the float 1.0 or the
float 1.00000 yields identity key 1.0 in all three cases, the integer 3
yields key 3 without a decimal point; in general a float that is a whole
number in [0,999] prints with exactly one decimal place, any other float
prints with the %g model, integers print without a decimal point; and
PerformThreeWayComparison applies the one indexing function
indexCuesFromWorkspace to the source, cache and current trees alike. -/
theorem numeric_format_equivalence :
    ((indexCuesFromWorkspace [Cue.mk [("number", GoVal.str "1.0")] []]).map Prod.fst
      = ["1.0"]) ∧
    ((indexCuesFromWorkspace [Cue.mk [("number", GoVal.num 1.0)] []]).map Prod.fst
      = ["1.0"]) ∧
    ((indexCuesFromWorkspace [Cue.mk [("number", GoVal.num 1.00000)] []]).map Prod.fst
      = ["1.0"]) ∧
    ((indexCuesFromWorkspace [Cue.mk [("number", GoVal.int 3)] []]).map Prod.fst
      = ["3"]) ∧
    (∀ q : ℚ, formatGoNumber (.num q) =
      if q.den = 1 ∧ 0 ≤ q ∧ q ≤ 999 then toString q.num ++ ".0" else goFmtG q) ∧
    (∀ n : ℤ, formatGoNumber (.int n) = toString n) ∧
    (∀ sourceW cacheW currentW,
      (performThreeWayComparison sourceW (some cacheW) (some currentW) none).cueResults =
        (indexCuesFromWorkspace sourceW).map (fun p =>
          (p.1, classifyCue p.2 (alistLookup (indexCuesFromWorkspace cacheW) p.1)
            (alistLookup (indexCuesFromWorkspace currentW) p.1)))) := by
  have h10 : (1.0 : ℚ) = 1 := by norm_num
  have h100000 : (1.00000 : ℚ) = 1 := by norm_num
  refine ⟨?_, ?_, ?_, ?_, fun q => rfl, fun n => rfl, fun s c w => rfl⟩
  · simp [indexCuesFromWorkspace, indexCuesRecursively, indexOneCue, extractNumber, Cue.get,
      Cue.props, alistLookup, formatGoNumber, buildFullNumber, alistInsert]
  · rw [h10]
    simp [indexCuesFromWorkspace, indexCuesRecursively, indexOneCue, extractNumber, Cue.get,
      Cue.props, alistLookup, formatGoNumber, buildFullNumber, alistInsert]
    decide
  · rw [h100000]
    simp [indexCuesFromWorkspace, indexCuesRecursively, indexOneCue, extractNumber, Cue.get,
      Cue.props, alistLookup, formatGoNumber, buildFullNumber, alistInsert]
    decide
  · simp [indexCuesFromWorkspace, indexCuesRecursively, indexOneCue, extractNumber, Cue.get,
      Cue.props, alistLookup, formatGoNumber, buildFullNumber, alistInsert]
    decide

theorem alistLookup_insert_isSome {α : Type} (l : SMap α) (k key : String) (v : α)
    (h : (alistLookup l key).isSome) : (alistLookup (alistInsert l k v) key).isSome := by
  by_cases hk : k = key
  · subst hk; simp [alistLookup_insert_self]
  · rw [alistLookup_insert_ne _ _ _ _ hk]; exact h

mutual
theorem index_rec_mono (cues : List Cue) (parent : String) (i : Nat) (acc : SMap Cue)
    (key : String) (h : (alistLookup acc key).isSome) :
    (alistLookup (indexCuesRecursively cues parent i acc) key).isSome := by
  match cues with
  | [] => simpa [indexCuesRecursively] using h
  | c :: rest =>
    rw [indexCuesRecursively]
    exact index_rec_mono rest parent (i + 1) _ key (index_one_mono c parent i acc key h)
termination_by sizeOf cues
decreasing_by all_goals (simp_wf; try omega)

theorem index_one_mono (c : Cue) (parent : String) (i : Nat) (acc : SMap Cue)
    (key : String) (h : (alistLookup acc key).isSome) :
    (alistLookup (indexOneCue c parent i acc) key).isSome := by
  match c with
  | .mk props children =>
    rw [indexOneCue]
    apply index_rec_mono children _ 0 _ key
    dsimp only
    split
    · exact alistLookup_insert_isSome _ _ _ _ h
    · split
      · exact alistLookup_insert_isSome _ _ _ _ h
      · exact h
termination_by sizeOf c
decreasing_by all_goals (simp_wf; try omega)
end

/-- The cues visited by the recursive indexing walk: starting from the list
cues with parent number parent and loop index i, the walk visits cue c with
parent number p at position j. Children are visited under the full number of
their parent cue, with the loop index restarting at zero. -/
inductive Visits : List Cue → String → Nat → String → Nat → Cue → Prop where
  | head (c : Cue) (rest : List Cue) (parent : String) (i : Nat) :
      Visits (c :: rest) parent i parent i c
  | tail (cHead : Cue) (rest : List Cue) (parent : String) (i : Nat) (p : String)
      (j : Nat) (c : Cue) (h : Visits rest parent (i + 1) p j c) :
      Visits (cHead :: rest) parent i p j c
  | child (cHead : Cue) (rest : List Cue) (parent : String) (i : Nat) (p : String)
      (j : Nat) (c : Cue)
      (h : Visits cHead.children (buildFullNumber parent (extractNumber cHead)) 0 p j c) :
      Visits (cHead :: rest) parent i p j c

theorem buildFullNumber_empty (parent : String) : buildFullNumber parent "" = "" := by
  simp [buildFullNumber]

theorem visits_unnumbered_indexed (cues : List Cue) (parent : String) (i : Nat)
    (p : String) (j : Nat) (c : Cue) (hv : Visits cues parent i p j c) :
    ∀ acc : SMap Cue, extractNumber c = "" →
      (c.getStr "type" ≠ "" ∨ c.getStr "name" ≠ "") →
      (alistLookup (indexCuesRecursively cues parent i acc) (positionKey p j c)).isSome := by
  induction hv with
  | head c rest parent i =>
    intro acc hnum hinfo
    rw [indexCuesRecursively]
    apply index_rec_mono
    obtain ⟨props, children⟩ := c
    rw [indexOneCue]
    apply index_rec_mono
    dsimp only
    rw [hnum, buildFullNumber_empty]
    rw [if_neg (not_not_intro rfl), if_pos hinfo]
    simp [alistLookup_insert_self]
  | tail cHead rest parent i p j c h ih =>
    intro acc hnum hinfo
    rw [indexCuesRecursively]
    exact ih _ hnum hinfo
  | child cHead rest parent i p j c h ih =>
    intro acc hnum hinfo
    rw [indexCuesRecursively]
    apply index_rec_mono
    obtain ⟨props, children⟩ := cHead
    rw [indexOneCue]
    simp only [Cue.children] at ih
    exact ih _ hnum hinfo

/-! Claim C7: anonymous-cue indexing. The claim as stated is refuted by the
guard at cue_mapping.go:758-762, which drops an unnumbered cue whose type and
name are both empty; the amended statement restricts to unnumbered cues with
a non-empty type or name. -/

/-- C7 counterexample. A cue with no number, empty type and empty name is not
indexed at all: the index of the one-cue tree is empty and in particular has
no entry at the positional key @0[:] demanded by the claim. -/
theorem anonymous_cue_dropped_counterexample :
    extractNumber (Cue.mk [] []) = "" ∧
    (Cue.mk [] []).getStr "type" = "" ∧ (Cue.mk [] []).getStr "name" = "" ∧
    positionKey "" 0 (Cue.mk [] []) = "@0[:]" ∧
    indexCuesFromWorkspace [Cue.mk [] []] = [] ∧
    alistLookup (indexCuesFromWorkspace [Cue.mk [] []]) "@0[:]" = none := by
  have hempty : indexCuesFromWorkspace [Cue.mk [] []] = [] := by
    simp only [indexCuesFromWorkspace, indexCuesRecursively, indexOneCue, extractNumber,
      Cue.get, Cue.props, Cue.getStr, alistLookup, formatGoNumber, buildFullNumber,
      alistInsert]
    simp
  refine ⟨rfl, rfl, rfl, by decide, hempty, ?_⟩
  rw [hempty]
  rfl

/-- C7 amended. Every cue visited by the indexing walk that has no number and
a non-empty type or name is indexed: the index of the tree has an entry at
its positional key parent@index[lowercasetype:name]. -/
theorem anonymous_cue_indexing_amended (tree : List Cue) (p : String) (j : Nat) (c : Cue)
    (hv : Visits tree "" 0 p j c) (hnum : extractNumber c = "")
    (hinfo : c.getStr "type" ≠ "" ∨ c.getStr "name" ≠ "") :
    (alistLookup (indexCuesFromWorkspace tree) (positionKey p j c)).isSome := by
  rw [indexCuesFromWorkspace]
  exact visits_unnumbered_indexed tree "" 0 p j c hv [] hnum hinfo

/-- Closed witness for the amended C7: one unnumbered audio cue at the root. -/
theorem anonymous_cue_indexing_amended_witness :
    (alistLookup (indexCuesFromWorkspace [Cue.mk [("type", GoVal.str "Audio")] []])
      (positionKey "" 0 (Cue.mk [("type", GoVal.str "Audio")] []))).isSome :=
  anonymous_cue_indexing_amended _ _ _ _ (Visits.head _ _ _ _) rfl (Or.inl (by decide))

/-! Claim C10: identity-key scheme mismatch between the indexer and
extractCueIdentifier. -/

theorem buildFullNumber_ne_empty (p n : String) (h : n ≠ "") :
    buildFullNumber p n ≠ "" := by
  unfold buildFullNumber
  split
  · split
    · exact h
    · intro he
      have hd : (p ++ "." ++ n).data = (p.data ++ ['.']) ++ n.data := rfl
      rw [he] at hd
      simp at hd
  · exact h

theorem goToLower_length (s : String) : (goToLower s).length = s.length := by
  show (s.data.map Char.toLower).length = s.data.length
  exact List.length_map _ _

/-- C10. The identifier used when preserving skipped cues in the cache
(extractCueIdentifier) agrees with the indexer on every cue with a non-empty
number: both use the very same full-number key, and the indexer stores the
cue under it. For every unnumbered cue the two schemes never agree:
extractCueIdentifier yields [type:name] while the indexer yields a positional
key parent@index[lowercasetype:name], and no choice of parents or index makes
the two strings equal — so the skipped-cue preservation lookup can never
match an unnumbered cue. -/
theorem identifier_scheme_mismatch :
    (∀ (c : Cue) (p : String), extractNumber c ≠ "" →
      extractCueIdentifier c p = buildFullNumber p (extractNumber c)) ∧
    (∀ (props : List (String × GoVal)) (children : List Cue) (p : String) (i : Nat)
        (acc : SMap Cue), extractNumber (Cue.mk props children) ≠ "" →
      indexOneCue (Cue.mk props children) p i acc =
        indexCuesRecursively children
          (buildFullNumber p (extractNumber (Cue.mk props children))) 0
          (alistInsert acc (buildFullNumber p (extractNumber (Cue.mk props children)))
            (Cue.mk props children))) ∧
    (∀ (c : Cue) (p1 p2 : String) (i : Nat), extractNumber c = "" →
      extractCueIdentifier c p1 ≠ positionKey p2 i c) := by
  refine ⟨?_, ?_, ?_⟩
  · intro c p h
    unfold extractCueIdentifier
    rw [if_neg (buildFullNumber_ne_empty p (extractNumber c) h)]
  · intro props children p i acc h
    rw [indexOneCue]
    simp only [if_pos (buildFullNumber_ne_empty p (extractNumber (Cue.mk props children)) h),
      ne_eq, buildFullNumber_ne_empty p (extractNumber (Cue.mk props children)) h,
      not_false_eq_true, reduceIte]
  · intro c p1 p2 i hnum heq
    unfold extractCueIdentifier at heq
    rw [hnum, buildFullNumber_empty, if_pos rfl] at heq
    unfold positionKey at heq
    have hlen := congrArg String.length heq
    by_cases hp : p2 ≠ ""
    · rw [if_pos hp] at hlen
      simp only [String.length_append, goToLower_length,
        show ("[" : String).length = 1 from rfl, show (":" : String).length = 1 from rfl,
        show ("]" : String).length = 1 from rfl,
        show ("@" : String).length = 1 from rfl] at hlen
      have hp2len : p2.length = 0 := by omega
      apply hp
      apply String.ext
      simpa using List.length_eq_zero.mp (by exact hp2len)
    · rw [if_neg hp] at hlen
      simp only [String.length_append, goToLower_length,
        show ("[" : String).length = 1 from rfl, show (":" : String).length = 1 from rfl,
        show ("]" : String).length = 1 from rfl,
        show ("@" : String).length = 1 from rfl] at hlen
      omega

/-! Claim C4: field-equivalence policy of the detailed comparator. -/

theorem diffStep_cases (cue1 cue2 : Cue) (acc : SMap String) (prop : String) :
    diffStep cue1 cue2 acc prop = acc ∨
    diffStep cue1 cue2 acc prop =
      alistInsert acc prop
        (diffDescription (normalizeProperty (cue1.get prop))
          (normalizeProperty (cue2.get prop))) := by
  unfold diffStep
  split
  · exact Or.inl rfl
  · split
    · exact Or.inl rfl
    · split
      · exact Or.inl rfl
      · exact Or.inr rfl

theorem diffStep_lookup_other (cue1 cue2 : Cue) (acc : SMap String) (prop k : String)
    (h : prop ≠ k) :
    alistLookup (diffStep cue1 cue2 acc prop) k = alistLookup acc k := by
  rcases diffStep_cases cue1 cue2 acc prop with hc | hc <;> rw [hc]
  exact alistLookup_insert_ne _ _ _ _ h

theorem diffFold_skip (cue1 cue2 : Cue) (k : String)
    (hk : ∀ acc : SMap String, diffStep cue1 cue2 acc k = acc) :
    ∀ (props : List String) (acc : SMap String),
      alistLookup (props.foldl (diffStep cue1 cue2) acc) k = alistLookup acc k := by
  intro props
  induction props with
  | nil => intro acc; rfl
  | cons p rest ih =>
    intro acc
    rw [List.foldl_cons, ih]
    by_cases hp : p = k
    · subst hp; rw [hk]
    · exact diffStep_lookup_other cue1 cue2 acc p k hp

theorem diffFold_not_mem (cue1 cue2 : Cue) (k : String) :
    ∀ (props : List String) (acc : SMap String), k ∉ props →
      alistLookup (props.foldl (diffStep cue1 cue2) acc) k = alistLookup acc k := by
  intro props
  induction props with
  | nil => intro acc _; rfl
  | cons p rest ih =>
    intro acc hnm
    rw [List.foldl_cons, ih _ (fun hmem => hnm (List.mem_cons_of_mem _ hmem))]
    exact diffStep_lookup_other cue1 cue2 acc p k (fun hpk => hnm (hpk ▸ List.mem_cons_self p rest))

theorem diffFold_hit (cue1 cue2 : Cue) (k : String)
    (hins : ∀ acc : SMap String, diffStep cue1 cue2 acc k =
      alistInsert acc k
        (diffDescription (normalizeProperty (cue1.get k)) (normalizeProperty (cue2.get k)))) :
    ∀ (props : List String) (acc : SMap String), props.Nodup → k ∈ props →
      alistLookup (props.foldl (diffStep cue1 cue2) acc) k =
        some (diffDescription (normalizeProperty (cue1.get k))
          (normalizeProperty (cue2.get k))) := by
  intro props
  induction props with
  | nil => intro acc _ hmem; cases hmem
  | cons p rest ih =>
    intro acc hnd hmem
    rw [List.foldl_cons]
    by_cases hp : p = k
    · subst hp
      have hkr : p ∉ rest := (List.nodup_cons.mp hnd).1
      rw [diffFold_not_mem cue1 cue2 p rest _ hkr, hins, alistLookup_insert_self]
    · have hmem2 : k ∈ rest := by
        cases hmem with
        | head => exact absurd rfl hp
        | tail _ hm => exact hm
      exact ih _ (List.nodup_cons.mp hnd).2 hmem2

theorem diffFold_domain (cue1 cue2 : Cue) :
    ∀ (props : List String) (acc : SMap String) (f v : String),
      (f, v) ∈ props.foldl (diffStep cue1 cue2) acc → (f, v) ∈ acc ∨ f ∈ props := by
  intro props
  induction props with
  | nil => intro acc f v h; exact Or.inl h
  | cons p rest ih =>
    intro acc f v h
    rw [List.foldl_cons] at h
    rcases ih _ f v h with hacc | hrest
    · rcases diffStep_cases cue1 cue2 acc p with hc | hc <;> rw [hc] at hacc
      · exact Or.inl hacc
      · rcases List.mem_cons.mp hacc with hhd | htl
        · exact Or.inr (by rw [show f = p from congrArg Prod.fst hhd]; exact List.mem_cons_self _ _)
        · exact Or.inl (List.mem_of_mem_filter htl)
    · exact Or.inr (List.mem_cons_of_mem _ hrest)

theorem comparePropertyValues_refl (p v : String) : comparePropertyValues p v v = true := by
  simp [comparePropertyValues]

theorem comparePropertyValues_armed_flagged (p v1 v2 : String)
    (hp : p = "armed" ∨ p = "flagged") : comparePropertyValues p v1 v2 = true := by
  by_cases h : v1 = v2
  · simp [comparePropertyValues, h]
  · simp [comparePropertyValues, h, hp]

theorem comparePropertyValues_duration_zero (v1 v2 : String)
    (h : (v1 = "0" ∧ v2 = "") ∨ (v1 = "" ∧ v2 = "0")) :
    comparePropertyValues "duration" v1 v2 = true := by
  rcases h with ⟨h1, h2⟩ | ⟨h1, h2⟩ <;> subst h1 <;> subst h2 <;> simp [comparePropertyValues]

theorem comparePropertyValues_type_fold (v1 v2 : String)
    (h : goToLower v1 = goToLower v2) : comparePropertyValues "type" v1 v2 = true := by
  by_cases he : v1 = v2
  · simp [comparePropertyValues, he]
  · simp [comparePropertyValues, he, h]

theorem comparePropertyValues_colorName_none (v1 v2 : String)
    (h : (v1 = "" ∧ v2 = "none") ∨ (v1 = "none" ∧ v2 = "")) :
    comparePropertyValues "colorName" v1 v2 = true := by
  rcases h with ⟨h1, h2⟩ | ⟨h1, h2⟩ <;> subst h1 <;> subst h2 <;> simp [comparePropertyValues]

theorem comparePropertyValues_fileTarget_base (v1 v2 : String) (h1 : v1 ≠ "")
    (h2 : v2 ≠ "") (hb : goFilepathBase v1 = goFilepathBase v2) :
    comparePropertyValues "fileTarget" v1 v2 = true := by
  by_cases he : v1 = v2
  · simp [comparePropertyValues, he]
  · simp [comparePropertyValues, he, h1, h2, hb]

theorem diffStep_skip_of_cmp (cue1 cue2 : Cue) (k : String)
    (hcmp : comparePropertyValues k (normalizeProperty (cue1.get k))
      (normalizeProperty (cue2.get k)) = true) (acc : SMap String) :
    diffStep cue1 cue2 acc k = acc := by
  unfold diffStep
  split_ifs <;> rfl

theorem diffStep_skip_of_gate (cue1 cue2 : Cue) (k : String)
    (hg : (k = "fileTarget" ∨ k = "cueTargetNumber") ∧
      ((cue1.get k).isNone ∨ (cue2.get k).isNone)) (acc : SMap String) :
    diffStep cue1 cue2 acc k = acc := by
  unfold diffStep
  split_ifs <;> rfl

theorem lookup_compare_none (cue1 cue2 : Cue) (k : String)
    (hk : ∀ acc : SMap String, diffStep cue1 cue2 acc k = acc) :
    alistLookup (compareCuePropertiesDetailed cue1 cue2) k = none := by
  unfold compareCuePropertiesDetailed
  rw [diffFold_skip cue1 cue2 k hk]
  rfl

/-- C4. The detailed comparator compares exactly the nine listed fields;
armed and flagged are never reported; duration values 0 and empty, type
values equal up to case, and colorName values empty and none are equivalent;
fileTarget and cueTargetNumber are compared only when both bags define the
key, fileTarget by basename only and cueTargetNumber by exact match with
both-empty equal; and every pair that the policy rejects is reported under
its field name in the literal format quoted-old -> quoted-new. -/
theorem field_equivalence_policy :
    (∀ (cue1 cue2 : Cue) (f v : String),
      (f, v) ∈ compareCuePropertiesDetailed cue1 cue2 → f ∈ comparedProperties) ∧
    (∀ cue1 cue2 : Cue,
      alistLookup (compareCuePropertiesDetailed cue1 cue2) "armed" = none ∧
      alistLookup (compareCuePropertiesDetailed cue1 cue2) "flagged" = none) ∧
    (∀ cue1 cue2 : Cue,
      ((normalizeProperty (cue1.get "duration") = "0" ∧
        normalizeProperty (cue2.get "duration") = "") ∨
       (normalizeProperty (cue1.get "duration") = "" ∧
        normalizeProperty (cue2.get "duration") = "0")) →
      alistLookup (compareCuePropertiesDetailed cue1 cue2) "duration" = none) ∧
    (∀ cue1 cue2 : Cue,
      goToLower (normalizeProperty (cue1.get "type")) =
        goToLower (normalizeProperty (cue2.get "type")) →
      alistLookup (compareCuePropertiesDetailed cue1 cue2) "type" = none) ∧
    (∀ cue1 cue2 : Cue,
      ((normalizeProperty (cue1.get "colorName") = "" ∧
        normalizeProperty (cue2.get "colorName") = "none") ∨
       (normalizeProperty (cue1.get "colorName") = "none" ∧
        normalizeProperty (cue2.get "colorName") = "")) →
      alistLookup (compareCuePropertiesDetailed cue1 cue2) "colorName" = none) ∧
    (∀ (cue1 cue2 : Cue) (p : String), (p = "fileTarget" ∨ p = "cueTargetNumber") →
      ((cue1.get p).isNone ∨ (cue2.get p).isNone) →
      alistLookup (compareCuePropertiesDetailed cue1 cue2) p = none) ∧
    (∀ cue1 cue2 : Cue, normalizeProperty (cue1.get "fileTarget") ≠ "" →
      normalizeProperty (cue2.get "fileTarget") ≠ "" →
      goFilepathBase (normalizeProperty (cue1.get "fileTarget")) =
        goFilepathBase (normalizeProperty (cue2.get "fileTarget")) →
      alistLookup (compareCuePropertiesDetailed cue1 cue2) "fileTarget" = none) ∧
    (∀ cue1 cue2 : Cue,
      normalizeProperty (cue1.get "cueTargetNumber") =
        normalizeProperty (cue2.get "cueTargetNumber") →
      alistLookup (compareCuePropertiesDetailed cue1 cue2) "cueTargetNumber" = none) ∧
    (∀ (cue1 cue2 : Cue) (p : String), p ∈ comparedProperties →
      ¬(normalizeProperty (cue1.get p) = "" ∧ normalizeProperty (cue2.get p) = "") →
      ¬((p = "fileTarget" ∨ p = "cueTargetNumber") ∧
        ((cue1.get p).isNone ∨ (cue2.get p).isNone)) →
      comparePropertyValues p (normalizeProperty (cue1.get p))
        (normalizeProperty (cue2.get p)) = false →
      alistLookup (compareCuePropertiesDetailed cue1 cue2) p =
        some (diffDescription (normalizeProperty (cue1.get p))
          (normalizeProperty (cue2.get p)))) := by
  refine ⟨?_, ?_, ?_, ?_, ?_, ?_, ?_, ?_, ?_⟩
  · intro cue1 cue2 f v hmem
    rcases diffFold_domain cue1 cue2 comparedProperties [] f v hmem with habs | hp
    · cases habs
    · exact hp
  · intro cue1 cue2
    exact ⟨lookup_compare_none cue1 cue2 _
        (diffStep_skip_of_cmp cue1 cue2 "armed"
          (comparePropertyValues_armed_flagged _ _ _ (Or.inl rfl))),
      lookup_compare_none cue1 cue2 _
        (diffStep_skip_of_cmp cue1 cue2 "flagged"
          (comparePropertyValues_armed_flagged _ _ _ (Or.inr rfl)))⟩
  · intro cue1 cue2 h
    exact lookup_compare_none cue1 cue2 _
      (diffStep_skip_of_cmp cue1 cue2 "duration" (comparePropertyValues_duration_zero _ _ h))
  · intro cue1 cue2 h
    exact lookup_compare_none cue1 cue2 _
      (diffStep_skip_of_cmp cue1 cue2 "type" (comparePropertyValues_type_fold _ _ h))
  · intro cue1 cue2 h
    exact lookup_compare_none cue1 cue2 _
      (diffStep_skip_of_cmp cue1 cue2 "colorName"
        (comparePropertyValues_colorName_none _ _ h))
  · intro cue1 cue2 p hp hnone
    exact lookup_compare_none cue1 cue2 _ (diffStep_skip_of_gate cue1 cue2 p ⟨hp, hnone⟩)
  · intro cue1 cue2 h1 h2 hb
    exact lookup_compare_none cue1 cue2 _
      (diffStep_skip_of_cmp cue1 cue2 "fileTarget"
        (comparePropertyValues_fileTarget_base _ _ h1 h2 hb))
  · intro cue1 cue2 h
    exact lookup_compare_none cue1 cue2 _
      (diffStep_skip_of_cmp cue1 cue2 "cueTargetNumber" (h ▸ comparePropertyValues_refl _ _))
  · intro cue1 cue2 p hmem hne hgate hcmp
    unfold compareCuePropertiesDetailed
    rw [diffFold_hit cue1 cue2 p ?_ comparedProperties [] (by decide) hmem]
    intro acc
    unfold diffStep
    rw [if_neg hne, if_neg hgate]
    simp [hcmp]

/-- Closed witness for C4: arm-state difference is not reported and a name
difference is reported in the literal quoted format. -/
theorem field_equivalence_policy_witness :
    alistLookup (compareCuePropertiesDetailed (Cue.mk [("armed", GoVal.str "true")] [])
      (Cue.mk [("armed", GoVal.str "")] [])) "armed" = none ∧
    alistLookup (compareCuePropertiesDetailed (Cue.mk [("name", GoVal.str "x")] [])
      (Cue.mk [("name", GoVal.str "y")] [])) "name" =
      some (diffDescription "x" "y") := by
  constructor
  · exact (field_equivalence_policy.2.1 _ _).1
  · exact field_equivalence_policy.2.2.2.2.2.2.2.2 (Cue.mk [("name", GoVal.str "x")] [])
      (Cue.mk [("name", GoVal.str "y")] []) "name" (by decide) (by decide) (by decide)
      (by decide)

/-! Claim C3: conflict gating. -/

/-- C3. IdentifyConflicts returns the empty conflict list and a nil error
whenever the live query failed, no cache exists, or the cache matches the
live state — regardless of the per-cue results and the scope tree. -/
theorem conflict_gating (comparison : ThreeWayComparison)
    (h : comparison.hasQLabData = false ∨ comparison.hasCache = false ∨
      comparison.cacheMatchesQLab = true) :
    IdentifyConflicts comparison = ([], none) := by
  unfold IdentifyConflicts
  rcases h with h | h | h
  · simp [h]
  · by_cases hq : comparison.hasQLabData <;> simp [h, hq]
  · by_cases hq : comparison.hasQLabData <;> by_cases hc : comparison.hasCache <;>
      simp [h, hq, hc]

/-- Closed witness for C3: a comparison with a failed live query, a cache, a
populated result map and a conflict-laden scope tree still yields no
conflicts. -/
theorem conflict_gating_witness :
    IdentifyConflicts
      { cueResults := [("1",
          { initialCueChangeResult with
              action := "update"
              reason := "QLab modified externally, reverting to source" })]
        hasCache := true
        hasQLabData := false
        cacheMatchesQLab := false
        qlabChosenCues := []
        qlabChosenFields := []
        currentQLabData := none
        workspaceScope := some (.mk "cue" "1" true "update" [] [] true false) } =
      ([], none) :=
  conflict_gating _ (Or.inl rfl)

/-! Claim C6: conflict-resolution application. -/

theorem applyOne_lookup_other (comparison : ThreeWayComparison) (k0 ch k : String)
    (hne : k0 ≠ k) :
    alistLookup (applyOneResolution comparison k0 ch).cueResults k =
      alistLookup comparison.cueResults k := by
  unfold applyOneResolution
  cases alistLookup comparison.cueResults k0 with
  | none => rfl
  | some r =>
    dsimp only
    split_ifs <;> exact alistLookup_insert_ne _ _ _ _ hne

theorem applyOne_mem_other (comparison : ThreeWayComparison) (k0 ch k : String)
    (hne : k0 ≠ k) :
    (k ∈ (applyOneResolution comparison k0 ch).qlabChosenCues ↔
      k ∈ comparison.qlabChosenCues) := by
  unfold applyOneResolution
  cases alistLookup comparison.cueResults k0 with
  | none => exact Iff.rfl
  | some r =>
    dsimp only
    split_ifs <;> simp [List.mem_append, Ne.symm hne]

theorem applyFold_preserve (resolutions : SMap String) :
    ∀ (comparison : ThreeWayComparison) (k : String),
      (∀ p ∈ resolutions, p.1 ≠ k) →
      alistLookup (ApplyResolutions comparison resolutions).cueResults k =
        alistLookup comparison.cueResults k ∧
      (k ∈ (ApplyResolutions comparison resolutions).qlabChosenCues ↔
        k ∈ comparison.qlabChosenCues) := by
  induction resolutions with
  | nil => intro comparison k _; exact ⟨rfl, Iff.rfl⟩
  | cons p rest ih =>
    intro comparison k hne
    have hstep := ih (applyOneResolution comparison p.1 p.2) k
      (fun q hq => hne q (List.mem_cons_of_mem _ hq))
    have hhd : p.1 ≠ k := hne p (List.mem_cons_self _ _)
    refine ⟨?_, ?_⟩
    · rw [show ApplyResolutions comparison (p :: rest) =
        ApplyResolutions (applyOneResolution comparison p.1 p.2) rest from rfl,
        hstep.1, applyOne_lookup_other comparison p.1 p.2 k hhd]
    · rw [show ApplyResolutions comparison (p :: rest) =
        ApplyResolutions (applyOneResolution comparison p.1 p.2) rest from rfl]
      exact hstep.2.trans (applyOne_mem_other comparison p.1 p.2 k hhd)

/-- The result record written by the use-source choice. -/
def useSourceResult (r0 : CueChangeResult) : CueChangeResult :=
  { r0 with action := "update", reason := "User chose to use source file version" }

/-- The result record written by the keep-QLab choice. -/
def keepQLabResult (r0 : CueChangeResult) : CueChangeResult :=
  { r0 with action := "skip", reason := "User chose to keep QLab version" }

/-- The result record written by the skip choice. -/
def skipChoiceResult (r0 : CueChangeResult) : CueChangeResult :=
  { r0 with action := "skip", reason := "User chose to skip this cue" }

/-- C6. For every resolution map with unique keys and every resolved key that
exists in CueResults: the use-source choice turns the result into an update
with the user-chose-source reason; the keep-QLab choice turns it into a skip
with the user-chose-QLab reason and records the key in QLabChosenCues; the
skip choice turns it into a skip with the user-chose-to-skip reason without
recording the key (its QLabChosenCues membership is unchanged). -/
theorem apply_resolutions_spec (resolutions : SMap String) :
    ∀ (comparison : ThreeWayComparison) (k choice : String) (r0 : CueChangeResult),
      (resolutions.map Prod.fst).Nodup →
      (k, choice) ∈ resolutions →
      alistLookup comparison.cueResults k = some r0 →
      (choice = choiceUseSource →
        alistLookup (ApplyResolutions comparison resolutions).cueResults k =
          some (useSourceResult r0) ∧
        (k ∈ (ApplyResolutions comparison resolutions).qlabChosenCues ↔
          k ∈ comparison.qlabChosenCues)) ∧
      (choice = choiceKeepQLab →
        alistLookup (ApplyResolutions comparison resolutions).cueResults k =
          some (keepQLabResult r0) ∧
        k ∈ (ApplyResolutions comparison resolutions).qlabChosenCues) ∧
      (choice = choiceSkip →
        alistLookup (ApplyResolutions comparison resolutions).cueResults k =
          some (skipChoiceResult r0) ∧
        (k ∈ (ApplyResolutions comparison resolutions).qlabChosenCues ↔
          k ∈ comparison.qlabChosenCues)) := by
  induction resolutions with
  | nil => intro comparison k choice r0 _ hmem; cases hmem
  | cons p rest ih =>
    obtain ⟨k0, ch0⟩ := p
    intro comparison k choice r0 hnd hmem hr
    rw [show ApplyResolutions comparison ((k0, ch0) :: rest) =
      ApplyResolutions (applyOneResolution comparison k0 ch0) rest from rfl]
    rcases List.mem_cons.mp hmem with hhd | htl
    · injection hhd with hk hch
      subst hk
      subst hch
      have hkeys : ∀ q ∈ rest, q.1 ≠ k := by
        intro q hq hqk
        have hkm : k ∈ rest.map Prod.fst := hqk ▸ List.mem_map_of_mem Prod.fst hq
        exact (List.nodup_cons.mp (by simpa using hnd)).1 hkm
      have hpres := applyFold_preserve rest (applyOneResolution comparison k choice) k hkeys
      refine ⟨?_, ?_, ?_⟩ <;> intro hchoice <;> subst hchoice
      · refine ⟨?_, ?_⟩
        · rw [hpres.1]
          unfold applyOneResolution
          rw [hr]
          simp [choiceUseSource, useSourceResult, alistLookup_insert_self]
        · rw [hpres.2]
          unfold applyOneResolution
          rw [hr]
          simp [choiceUseSource]
      · refine ⟨?_, ?_⟩
        · rw [hpres.1]
          unfold applyOneResolution
          rw [hr]
          simp [choiceKeepQLab, choiceUseSource, keepQLabResult, alistLookup_insert_self]
        · rw [hpres.2]
          unfold applyOneResolution
          rw [hr]
          simp [choiceKeepQLab, choiceUseSource]
      · refine ⟨?_, ?_⟩
        · rw [hpres.1]
          unfold applyOneResolution
          rw [hr]
          simp [choiceSkip, choiceUseSource, choiceKeepQLab, skipChoiceResult,
            alistLookup_insert_self]
        · rw [hpres.2]
          unfold applyOneResolution
          rw [hr]
          simp [choiceSkip, choiceUseSource, choiceKeepQLab]
    · have hk0 : k0 ≠ k := by
        intro hpk
        have hkm : k ∈ rest.map Prod.fst := by
          simpa using List.mem_map_of_mem Prod.fst htl
        exact (List.nodup_cons.mp (by simpa using hnd)).1 (hpk ▸ hkm)
      have hr2 : alistLookup (applyOneResolution comparison k0 ch0).cueResults k =
          some r0 := by
        rw [applyOne_lookup_other comparison k0 ch0 k hk0]; exact hr
      have hih := ih (applyOneResolution comparison k0 ch0) k choice r0
        ((List.nodup_cons.mp (by simpa using hnd)).2) htl hr2
      have hmem0 := applyOne_mem_other comparison k0 ch0 k hk0
      refine ⟨?_, ?_, ?_⟩ <;> intro hchoice
      · exact ⟨(hih.1 hchoice).1, ((hih.1 hchoice).2).trans hmem0⟩
      · exact ⟨(hih.2.1 hchoice).1, (hih.2.1 hchoice).2⟩
      · exact ⟨(hih.2.2 hchoice).1, ((hih.2.2 hchoice).2).trans hmem0⟩

/-- A one-cue comparison used by closed statements about ApplyResolutions. -/
def singleCueComparison : ThreeWayComparison :=
  { cueResults := [("1", initialCueChangeResult)]
    hasCache := true
    hasQLabData := true
    cacheMatchesQLab := false
    qlabChosenCues := []
    qlabChosenFields := []
    currentQLabData := none
    workspaceScope := none }

/-- Closed witness for C6: resolving the single cue 1 with the keep-QLab
choice flips its result to skip with the user-chose-QLab reason and records
the key. -/
theorem apply_resolutions_spec_witness :
    alistLookup (ApplyResolutions singleCueComparison
        [("1", choiceKeepQLab)]).cueResults "1" =
      some (keepQLabResult initialCueChangeResult) ∧
    "1" ∈ (ApplyResolutions singleCueComparison
        [("1", choiceKeepQLab)]).qlabChosenCues :=
  (apply_resolutions_spec [("1", choiceKeepQLab)] singleCueComparison "1" choiceKeepQLab
    initialCueChangeResult (by decide) (List.mem_cons_self _ _) rfl).2.1 rfl

/-! Claims C1 and C2: the three-way classification. -/

theorem alistLookup_map_val {α β : Type} (f : String → α → β) (l : SMap α) (k : String) :
    alistLookup (l.map (fun p => (p.1, f p.1 p.2))) k = (alistLookup l k).map (f k) := by
  induction l with
  | nil => rfl
  | cons p rest ih =>
    obtain ⟨k0, v⟩ := p
    by_cases hk : k0 = k
    · subst hk
      simp [alistLookup]
    · simp [alistLookup, hk, ih]

/-- The fields of a CueChangeResult that linkScopeDataToCueResults leaves
untouched (it only rewrites ScopeData and FieldConflicts). -/
def samePlanFields (r r0 : CueChangeResult) : Prop :=
  r.action = r0.action ∧ r.reason = r0.reason ∧ r.modifiedFields = r0.modifiedFields ∧
  r.hasChanged = r0.hasChanged ∧ r.existingID = r0.existingID ∧ r.cueID = r0.cueID

theorem samePlanFields_refl (r : CueChangeResult) : samePlanFields r r :=
  ⟨rfl, rfl, rfl, rfl, rfl, rfl⟩

theorem samePlanFields_trans {a b c : CueChangeResult} (h1 : samePlanFields a b)
    (h2 : samePlanFields b c) : samePlanFields a c :=
  ⟨h1.1.trans h2.1, h1.2.1.trans h2.2.1, h1.2.2.1.trans h2.2.2.1,
   h1.2.2.2.1.trans h2.2.2.2.1, h1.2.2.2.2.1.trans h2.2.2.2.2.1,
   h1.2.2.2.2.2.trans h2.2.2.2.2.2⟩

/-- One step of the linking fold preserves plan fields at every key. -/
theorem linkStep_preserve (res : SMap CueChangeResult) (cs : ScopeComparison)
    (k : String) (r : CueChangeResult)
    (h : alistLookup
      (if cs.scope = "cue" then
        match alistLookup res cs.identifier with
        | some r1 =>
            alistInsert res cs.identifier
              { r1 with scopeData := some cs, fieldConflicts := cs.fieldChanges }
        | none => res
      else res) k = some r) :
    ∃ r0, alistLookup res k = some r0 ∧ samePlanFields r r0 := by
  by_cases hsc : cs.scope = "cue"
  · rw [if_pos hsc] at h
    cases hlk : alistLookup res cs.identifier with
    | none => rw [hlk] at h; exact ⟨r, h, samePlanFields_refl r⟩
    | some r1 =>
      rw [hlk] at h
      by_cases hk : cs.identifier = k
      · subst hk
        rw [alistLookup_insert_self] at h
        refine ⟨r1, hlk, ?_⟩
        cases h.symm
        exact ⟨rfl, rfl, rfl, rfl, rfl, rfl⟩
      · rw [alistLookup_insert_ne _ _ _ _ hk] at h
        exact ⟨r, h, samePlanFields_refl r⟩
  · rw [if_neg hsc] at h
    exact ⟨r, h, samePlanFields_refl r⟩

theorem linkFold_preserve (scopes : List ScopeComparison) :
    ∀ (res : SMap CueChangeResult) (k : String) (r : CueChangeResult),
      alistLookup (scopes.foldl (fun acc cueScope =>
        if cueScope.scope = "cue" then
          match alistLookup acc cueScope.identifier with
          | some r1 =>
              alistInsert acc cueScope.identifier
                { r1 with
                    scopeData := some cueScope
                    fieldConflicts := cueScope.fieldChanges }
          | none => acc
        else acc) res) k = some r →
      ∃ r0, alistLookup res k = some r0 ∧ samePlanFields r r0 := by
  induction scopes with
  | nil => intro res k r h; exact ⟨r, h, samePlanFields_refl r⟩
  | cons cs rest ih =>
    intro res k r h
    rw [List.foldl_cons] at h
    obtain ⟨r1, h1, hp1⟩ := ih _ k r h
    obtain ⟨r0, h0, hp0⟩ := linkStep_preserve res cs k r1 h1
    exact ⟨r0, h0, samePlanFields_trans hp1 hp0⟩

theorem linkScope_preserve (results : SMap CueChangeResult) (ws : ScopeComparison)
    (k : String) (r : CueChangeResult)
    (h : alistLookup (linkScopeDataToCueResults results ws) k = some r) :
    ∃ r0, alistLookup results k = some r0 ∧ samePlanFields r r0 := by
  unfold linkScopeDataToCueResults at h
  exact linkFold_preserve ws.childScopes results k r h

theorem linkFold_isSome (scopes : List ScopeComparison) :
    ∀ (res : SMap CueChangeResult) (k : String),
      (alistLookup res k).isSome →
      (alistLookup (scopes.foldl (fun acc cueScope =>
        if cueScope.scope = "cue" then
          match alistLookup acc cueScope.identifier with
          | some r1 =>
              alistInsert acc cueScope.identifier
                { r1 with
                    scopeData := some cueScope
                    fieldConflicts := cueScope.fieldChanges }
          | none => acc
        else acc) res) k).isSome := by
  induction scopes with
  | nil => intro res k h; exact h
  | cons cs rest ih =>
    intro res k h
    rw [List.foldl_cons]
    apply ih
    by_cases hsc : cs.scope = "cue"
    · rw [if_pos hsc]
      cases hlk : alistLookup res cs.identifier with
      | none => exact h
      | some r1 => exact alistLookup_insert_isSome _ _ _ _ h
    · rw [if_neg hsc]; exact h

theorem linkScope_lookup (results : SMap CueChangeResult) (ws : ScopeComparison)
    (k : String) (r1 : CueChangeResult) (h : alistLookup results k = some r1) :
    ∃ r, alistLookup (linkScopeDataToCueResults results ws) k = some r ∧
      samePlanFields r r1 := by
  have hsome : (alistLookup (linkScopeDataToCueResults results ws) k).isSome := by
    unfold linkScopeDataToCueResults
    exact linkFold_isSome ws.childScopes results k (by rw [h]; rfl)
  obtain ⟨r, hr⟩ := Option.isSome_iff_exists.mp hsome
  obtain ⟨r0, h0, hp⟩ := linkScope_preserve results ws k r hr
  rw [h] at h0
  cases h0
  exact ⟨r, hr, hp⟩

theorem perform_cueResults_lookup (sourceW cacheW currentW : List Cue)
    (scopeRes : Option ScopeComparison) (k : String) (sc : Cue)
    (hs : alistLookup (indexCuesFromWorkspace sourceW) k = some sc) :
    ∃ r, alistLookup (performThreeWayComparison sourceW (some cacheW) (some currentW)
        scopeRes).cueResults k = some r ∧
      samePlanFields r (classifyCue sc (alistLookup (indexCuesFromWorkspace cacheW) k)
        (alistLookup (indexCuesFromWorkspace currentW) k)) := by
  have hbase : alistLookup ((indexCuesFromWorkspace sourceW).map (fun p =>
      (p.1, classifyCue p.2 (alistLookup (indexCuesFromWorkspace cacheW) p.1)
        (alistLookup (indexCuesFromWorkspace currentW) p.1)))) k =
      some (classifyCue sc (alistLookup (indexCuesFromWorkspace cacheW) k)
        (alistLookup (indexCuesFromWorkspace currentW) k)) := by
    rw [alistLookup_map_val (fun key cue => classifyCue cue
      (alistLookup (indexCuesFromWorkspace cacheW) key)
      (alistLookup (indexCuesFromWorkspace currentW) key)), hs]
    rfl
  cases scopeRes with
  | none => exact ⟨_, hbase, samePlanFields_refl _⟩
  | some ws => exact linkScope_lookup _ ws k _ hbase

theorem classifyCue_all_equal (sc cc cu : Cue)
    (h1 : compareCuePropertiesDetailed sc cc = [])
    (h2 : compareCuePropertiesDetailed cc cu = []) :
    (classifyCue sc (some cc) (some cu)).action = "skip" ∧
    (classifyCue sc (some cc) (some cu)).reason = "unchanged since last transmission" ∧
    (classifyCue sc (some cc) (some cu)).modifiedFields = [] := by
  simp [classifyCue, h1, h2]

theorem classifyCue_remote_modified (sc cc cu : Cue)
    (h1 : compareCuePropertiesDetailed sc cc = [])
    (h2 : compareCuePropertiesDetailed cc cu ≠ []) :
    (classifyCue sc (some cc) (some cu)).action = "update" ∧
    (classifyCue sc (some cc) (some cu)).reason =
      "QLab modified externally, reverting to source" ∧
    (classifyCue sc (some cc) (some cu)).modifiedFields =
      compareCuePropertiesDetailed cc cu := by
  simp [classifyCue, h1, h2]

theorem classifyCue_source_modified (sc cc cu : Cue)
    (h1 : compareCuePropertiesDetailed sc cc ≠ [])
    (h2 : compareCuePropertiesDetailed cc cu = []) :
    (classifyCue sc (some cc) (some cu)).action = "update" ∧
    (classifyCue sc (some cc) (some cu)).reason = "source file modified" ∧
    (classifyCue sc (some cc) (some cu)).modifiedFields =
      compareCuePropertiesDetailed sc cc := by
  simp [classifyCue, h1, h2]

theorem classifyCue_both_modified (sc cc cu : Cue)
    (h1 : compareCuePropertiesDetailed sc cc ≠ [])
    (h2 : compareCuePropertiesDetailed cc cu ≠ []) :
    (classifyCue sc (some cc) (some cu)).action = "update" ∧
    (classifyCue sc (some cc) (some cu)).reason = "both source and QLab modified" ∧
    (classifyCue sc (some cc) (some cu)).modifiedFields =
      (compareCuePropertiesDetailed sc cc).map
        (fun p => ("source_vs_cache_" ++ p.1, p.2)) ++
      (compareCuePropertiesDetailed cc cu).map
        (fun p => ("cache_vs_current_" ++ p.1, p.2)) := by
  simp [classifyCue, h1, h2]

theorem mem_prefixed_union (d1 d2 : SMap String) (f v : String) :
    ((f, v) ∈ d1.map (fun p => ("source_vs_cache_" ++ p.1, p.2)) ++
      d2.map (fun p => ("cache_vs_current_" ++ p.1, p.2))) ↔
    ((∃ f0, f = "source_vs_cache_" ++ f0 ∧ (f0, v) ∈ d1) ∨
     (∃ f0, f = "cache_vs_current_" ++ f0 ∧ (f0, v) ∈ d2)) := by
  rw [List.mem_append]
  constructor
  · rintro (hm | hm) <;> obtain ⟨⟨f0, v0⟩, hmem, heq⟩ := List.mem_map.mp hm <;>
      obtain ⟨hf, hv⟩ := Prod.mk.injEq .. ▸ heq <;> cases hv
    · exact Or.inl ⟨f0, hf.symm, hmem⟩
    · exact Or.inr ⟨f0, hf.symm, hmem⟩
  · rintro (⟨f0, hf, hmem⟩ | ⟨f0, hf, hmem⟩)
    · exact Or.inl (List.mem_map.mpr ⟨(f0, v), hmem, by rw [hf]⟩)
    · exact Or.inr (List.mem_map.mpr ⟨(f0, v), hmem, by rw [hf]⟩)

/-- C1. For every identity key present in the indexed source, cache and
current trees, the three-way classification assigns exactly one verdict:
both diffs empty gives skip with the unchanged reason and no modified
fields; only the cache-vs-current diff non-empty gives update with the
externally-modified reason and that diff; only the source-vs-cache diff
non-empty gives update with the source-modified reason and that diff; both
non-empty gives update with the both-modified reason and the union of both
diffs under the source_vs_cache_ and cache_vs_current_ prefixes. -/
theorem three_way_classification_complete (sourceW cacheW currentW : List Cue)
    (scopeRes : Option ScopeComparison) (k : String) (sc cc cu : Cue)
    (hs : alistLookup (indexCuesFromWorkspace sourceW) k = some sc)
    (hc : alistLookup (indexCuesFromWorkspace cacheW) k = some cc)
    (hw : alistLookup (indexCuesFromWorkspace currentW) k = some cu) :
    ∃ r, alistLookup (performThreeWayComparison sourceW (some cacheW) (some currentW)
        scopeRes).cueResults k = some r ∧
      (compareCuePropertiesDetailed sc cc = [] → compareCuePropertiesDetailed cc cu = [] →
        r.action = "skip" ∧ r.reason = "unchanged since last transmission" ∧
        r.modifiedFields = []) ∧
      (compareCuePropertiesDetailed sc cc = [] → compareCuePropertiesDetailed cc cu ≠ [] →
        r.action = "update" ∧ r.reason = "QLab modified externally, reverting to source" ∧
        r.modifiedFields = compareCuePropertiesDetailed cc cu) ∧
      (compareCuePropertiesDetailed sc cc ≠ [] → compareCuePropertiesDetailed cc cu = [] →
        r.action = "update" ∧ r.reason = "source file modified" ∧
        r.modifiedFields = compareCuePropertiesDetailed sc cc) ∧
      (compareCuePropertiesDetailed sc cc ≠ [] → compareCuePropertiesDetailed cc cu ≠ [] →
        r.action = "update" ∧ r.reason = "both source and QLab modified" ∧
        ∀ f v, ((f, v) ∈ r.modifiedFields ↔
          ((∃ f0, f = "source_vs_cache_" ++ f0 ∧
            (f0, v) ∈ compareCuePropertiesDetailed sc cc) ∨
           (∃ f0, f = "cache_vs_current_" ++ f0 ∧
            (f0, v) ∈ compareCuePropertiesDetailed cc cu)))) := by
  obtain ⟨r, hrl, hpf⟩ :=
    perform_cueResults_lookup sourceW cacheW currentW scopeRes k sc hs
  rw [hc, hw] at hpf
  obtain ⟨ha, hre, hmf, _, _, _⟩ := hpf
  refine ⟨r, hrl, ?_, ?_, ?_, ?_⟩
  · intro h1 h2
    obtain ⟨ca, cr, cm⟩ := classifyCue_all_equal sc cc cu h1 h2
    exact ⟨ha.trans ca, hre.trans cr, hmf.trans cm⟩
  · intro h1 h2
    obtain ⟨ca, cr, cm⟩ := classifyCue_remote_modified sc cc cu h1 h2
    exact ⟨ha.trans ca, hre.trans cr, hmf.trans cm⟩
  · intro h1 h2
    obtain ⟨ca, cr, cm⟩ := classifyCue_source_modified sc cc cu h1 h2
    exact ⟨ha.trans ca, hre.trans cr, hmf.trans cm⟩
  · intro h1 h2
    obtain ⟨ca, cr, cm⟩ := classifyCue_both_modified sc cc cu h1 h2
    refine ⟨ha.trans ca, hre.trans cr, ?_⟩
    intro f v
    rw [hmf.trans cm]
    exact mem_prefixed_union _ _ f v

/-- C2. When the live query failed (no current data), every identity key of
the indexed source tree is classified create with the new-cue reason — even
when a cache tree containing that key exists; the current-cue index is the
empty map, so no lookup dereferences a nil container. -/
theorem failed_query_reconciles_as_create (sourceW : List Cue)
    (cacheW : Option (List Cue)) (scopeRes : Option ScopeComparison) (k : String)
    (sc : Cue) (hs : alistLookup (indexCuesFromWorkspace sourceW) k = some sc) :
    ∃ r, alistLookup (performThreeWayComparison sourceW cacheW none
        scopeRes).cueResults k = some r ∧
      r.action = "create" ∧ r.reason = "new cue" ∧ r.hasChanged = true ∧
      r.modifiedFields = [] := by
  cases cacheW with
  | none =>
    rw [show (performThreeWayComparison sourceW none none scopeRes).cueResults =
        (indexCuesFromWorkspace sourceW).map (fun p =>
          (p.1, classifyCue p.2 (alistLookup ([] : SMap Cue) p.1)
            (alistLookup ([] : SMap Cue) p.1))) from rfl,
      alistLookup_map_val (fun key cue => classifyCue cue (alistLookup ([] : SMap Cue) key)
        (alistLookup ([] : SMap Cue) key)), hs]
    exact ⟨_, rfl, rfl, rfl, rfl, rfl⟩
  | some cached =>
    rw [show (performThreeWayComparison sourceW (some cached) none scopeRes).cueResults =
        (indexCuesFromWorkspace sourceW).map (fun p =>
          (p.1, classifyCue p.2 (alistLookup (indexCuesFromWorkspace cached) p.1)
            (alistLookup ([] : SMap Cue) p.1))) from rfl,
      alistLookup_map_val (fun key cue => classifyCue cue
        (alistLookup (indexCuesFromWorkspace cached) key)
        (alistLookup ([] : SMap Cue) key)), hs]
    exact ⟨_, rfl, rfl, rfl, rfl, rfl⟩

/-- Closed witness for C1 at the both-modified corner: cue 1 with three
different names in source, cache and current. -/
theorem three_way_classification_complete_witness :
    ∃ r, alistLookup (performThreeWayComparison
        [Cue.mk [("number", GoVal.str "1"), ("name", GoVal.str "a")] []]
        (some [Cue.mk [("number", GoVal.str "1"), ("name", GoVal.str "b")] []])
        (some [Cue.mk [("number", GoVal.str "1"), ("name", GoVal.str "c")] []])
        none).cueResults "1" = some r ∧
      r.action = "update" ∧ r.reason = "both source and QLab modified" := by
  obtain ⟨r, hrl, _, _, _, hboth⟩ := three_way_classification_complete
    [Cue.mk [("number", GoVal.str "1"), ("name", GoVal.str "a")] []]
    [Cue.mk [("number", GoVal.str "1"), ("name", GoVal.str "b")] []]
    [Cue.mk [("number", GoVal.str "1"), ("name", GoVal.str "c")] []]
    none "1"
    (Cue.mk [("number", GoVal.str "1"), ("name", GoVal.str "a")] [])
    (Cue.mk [("number", GoVal.str "1"), ("name", GoVal.str "b")] [])
    (Cue.mk [("number", GoVal.str "1"), ("name", GoVal.str "c")] [])
    (by simp [indexCuesFromWorkspace, indexCuesRecursively, indexOneCue, extractNumber,
      Cue.get, Cue.props, alistLookup, formatGoNumber, buildFullNumber, alistInsert])
    (by simp [indexCuesFromWorkspace, indexCuesRecursively, indexOneCue, extractNumber,
      Cue.get, Cue.props, alistLookup, formatGoNumber, buildFullNumber, alistInsert])
    (by simp [indexCuesFromWorkspace, indexCuesRecursively, indexOneCue, extractNumber,
      Cue.get, Cue.props, alistLookup, formatGoNumber, buildFullNumber, alistInsert])
  have hb := hboth (by decide) (by decide)
  exact ⟨r, hrl, hb.1, hb.2.1⟩

/-- Closed witness for C2: a one-cue source tree, a cache containing the same
key, and a failed live query. -/
theorem failed_query_reconciles_as_create_witness :
    ∃ r, alistLookup (performThreeWayComparison
        [Cue.mk [("number", GoVal.str "1"), ("name", GoVal.str "a")] []]
        (some [Cue.mk [("number", GoVal.str "1"), ("name", GoVal.str "a")] []])
        none none).cueResults "1" = some r ∧
      r.action = "create" ∧ r.reason = "new cue" :=
  match failed_query_reconciles_as_create
    [Cue.mk [("number", GoVal.str "1"), ("name", GoVal.str "a")] []]
    (some [Cue.mk [("number", GoVal.str "1"), ("name", GoVal.str "a")] []]) none "1"
    (Cue.mk [("number", GoVal.str "1"), ("name", GoVal.str "a")] [])
    (by simp [indexCuesFromWorkspace, indexCuesRecursively, indexOneCue, extractNumber,
      Cue.get, Cue.props, alistLookup, formatGoNumber, buildFullNumber, alistInsert]) with
  | ⟨r, hrl, ha, hre, _, _⟩ => ⟨r, hrl, ha, hre⟩

/-! Claim C8: an update without a known remote ID aborts before any command. -/

theorem processCueHead_update_no_id (env : MutationEnv) (cue : Cue)
    (parentNumber : String) (st : MutationState) (changeResults : SMap CueChangeResult)
    (cueIndex : Int) (lookupKey : String) (changeResult : CueChangeResult)
    (hlk : lookupChangeResult changeResults
      (buildFullNumber parentNumber (extractNumber cue))
      (if buildFullNumber parentNumber (extractNumber cue) = "" ∧ 0 ≤ cueIndex then
        some (positionKey parentNumber cueIndex.toNat cue)
      else none) = some (lookupKey, changeResult))
    (hact : changeResult.action = "update") (hid : changeResult.existingID = "") :
    processCueHead env cue parentNumber st changeResults cueIndex =
      .early (.error ("cannot update cue " ++ lookupKey ++ ": no existing ID provided"))
        st [] := by
  unfold processCueHead
  dsimp only
  rw [hlk]
  dsimp only
  rw [hact, hid]
  simp

/-- C8. For every cue whose change result carries the update action and an
empty ExistingID, the mutation pass returns the no-existing-ID error for that
cue with an empty command trace — no create or property-set command is issued
— and a failing sub-cue aborts its parent with the wrapped sub-cue error, so
the error propagates to the caller. -/
theorem update_requires_existing_id (env : MutationEnv)
    (props : List (String × GoVal)) (children : List Cue)
    (parentNumber parentUniqueID : String) (st : MutationState)
    (changeResults : SMap CueChangeResult) (cueIndex : Int)
    (lookupKey : String) (changeResult : CueChangeResult)
    (hlk : lookupChangeResult changeResults
      (buildFullNumber parentNumber (extractNumber (Cue.mk props children)))
      (if buildFullNumber parentNumber (extractNumber (Cue.mk props children)) = "" ∧
          0 ≤ cueIndex then
        some (positionKey parentNumber cueIndex.toNat (Cue.mk props children))
      else none) = some (lookupKey, changeResult))
    (hact : changeResult.action = "update") (hid : changeResult.existingID = "") :
    processCue env (Cue.mk props children) parentNumber parentUniqueID st changeResults
        cueIndex =
      (.error ("cannot update cue " ++ lookupKey ++ ": no existing ID provided"), st, []) ∧
    (∀ (sub : Cue) (rest : List Cue) (fullNumber uniqueID : String)
        (st2 st3 : MutationState) (trace tr3 : List QLabCmd) (childIndex : Nat)
        (e : String),
      processCue env sub fullNumber "" st2 changeResults (Int.ofNat childIndex) =
        (.error e, st3, tr3) →
      processChildren env (sub :: rest) fullNumber uniqueID st2 changeResults childIndex
          trace =
        (.error ("error processing sub-cue " ++ toString childIndex ++ ": " ++ e), st3,
          trace ++ tr3)) := by
  constructor
  · rw [processCue, processCueHead_update_no_id env (Cue.mk props children) parentNumber st
      changeResults cueIndex lookupKey changeResult hlk hact hid]
  · intro sub rest fullNumber uniqueID st2 st3 trace tr3 childIndex e hsub
    rw [processChildren, hsub]

/-- Closed witness for C8: cue 1 marked update with no existing ID fails with
the no-existing-ID error, unchanged state and an empty command trace. -/
theorem update_requires_existing_id_witness :
    processCue
      { createCue := fun _ _ => .ok "new-id"
        updateCueProperties := fun _ _ => .ok ()
        moveCueToParent := fun _ _ => .ok ()
        moveCueToParentWithIndex := fun _ _ _ => .ok () }
      (Cue.mk [("number", GoVal.str "1")] []) "" ""
      { numberToID := [], cuesWithTargets := [], cueListNames := [] }
      [("1", { initialCueChangeResult with action := "update" })] (-1) =
      (.error "cannot update cue 1: no existing ID provided",
        { numberToID := [], cuesWithTargets := [], cueListNames := [] }, []) :=
  (update_requires_existing_id
    { createCue := fun _ _ => .ok "new-id"
      updateCueProperties := fun _ _ => .ok ()
      moveCueToParent := fun _ _ => .ok ()
      moveCueToParentWithIndex := fun _ _ _ => .ok () }
    [("number", GoVal.str "1")] [] "" ""
    { numberToID := [], cuesWithTargets := [], cueListNames := [] }
    [("1", { initialCueChangeResult with action := "update" })] (-1) "1"
    { initialCueChangeResult with action := "update" } rfl rfl rfl).1

/-- Closed witness for C10: a numbered cue keys identically under both
schemes, and an unnumbered audio cue keys differently. -/
theorem identifier_scheme_mismatch_witness :
    extractCueIdentifier (Cue.mk [("number", GoVal.str "1")] []) "" =
      buildFullNumber "" (extractNumber (Cue.mk [("number", GoVal.str "1")] [])) ∧
    extractCueIdentifier (Cue.mk [("type", GoVal.str "Audio")] []) "" ≠
      positionKey "" 0 (Cue.mk [("type", GoVal.str "Audio")] []) :=
  ⟨identifier_scheme_mismatch.1 (Cue.mk [("number", GoVal.str "1")] []) "" (by decide),
   identifier_scheme_mismatch.2.2 (Cue.mk [("type", GoVal.str "Audio")] []) "" "" 0 rfl⟩
